import Mathlib

/-!
Verification of the transactional page manager
(`src/tree_store/page_store/page_manager.rs`).

The development shallowly embeds the page manager into Lean:

* the memory-mapped file is a total byte function `Nat → Nat` together with an
  explicit length; byte writes go through `writeBytes` and reads through
  `readBytes`;
* machine integers are `Nat`; the big-endian codecs `toBE4`/`toBE8`/`toBE16`
  mirror `u32::to_be_bytes`, `u64::to_be_bytes` and `u128::to_be_bytes`
  (they store the low 4/8/16 bytes, exactly as the fixed-width Rust types do);
* panics (`assert!`, `unwrap`, `unreachable!`) are modelled by `Option.none`;
* `mmap.flush()` is modelled as an always-succeeding event in the emitted
  event trace (claims about flush failure are out of scope);
* the external `PageAllocator` collaborator is not part of the repository
  sources, so it is modelled from the spec (see `AllocState` below).

Each operation of `TransactionalMemory` returns the result value, the updated
state and the list of observable effects (metapage byte writes, allocator
region mutations, flushes) in source order.
-/

/-- Write the byte list `l` into the byte store `m` starting at address `a`
(the Lean counterpart of `copy_from_slice` into `mem[a..a+l.length]`). -/
def writeBytes (m : Nat → Nat) (a : Nat) (l : List Nat) : Nat → Nat :=
  fun x => if a ≤ x ∧ x < a + l.length then l.getD (x - a) 0 else m x

/-- Read `n` bytes from the byte store `m` starting at address `a`. -/
def readBytes (m : Nat → Nat) (a : Nat) : Nat → List Nat
  | 0 => []
  | n + 1 => m a :: readBytes m (a + 1) n

theorem writeBytes_apply (m : Nat → Nat) (a : Nat) (l : List Nat) (x : Nat) :
    writeBytes m a l x = if a ≤ x ∧ x < a + l.length then l.getD (x - a) 0 else m x := rfl

theorem writeBytes_apply_out (m : Nat → Nat) (a : Nat) (l : List Nat) (x : Nat)
    (h : x < a ∨ a + l.length ≤ x) : writeBytes m a l x = m x := by
  unfold writeBytes
  rw [if_neg]
  omega

theorem writeBytes_apply_in (m : Nat → Nat) (a : Nat) (l : List Nat) (x : Nat)
    (h1 : a ≤ x) (h2 : x < a + l.length) : writeBytes m a l x = l.getD (x - a) 0 := by
  unfold writeBytes
  rw [if_pos ⟨h1, h2⟩]

theorem readBytes_length (m : Nat → Nat) (a n : Nat) : (readBytes m a n).length = n := by
  induction n generalizing a with
  | zero => rfl
  | succ k ih => simp [readBytes, ih]

/-- Reading a range that is disjoint from a written range sees the old store. -/
theorem readBytes_writeBytes_disjoint (m : Nat → Nat) (a : Nat) (l : List Nat)
    (b n : Nat) (h : a + l.length ≤ b ∨ b + n ≤ a) :
    readBytes (writeBytes m a l) b n = readBytes m b n := by
  induction n generalizing b with
  | zero => rfl
  | succ k ih =>
    unfold readBytes
    rw [writeBytes_apply_out m a l b (by omega), ih (b + 1) (by omega)]

theorem readBytes_writeBytes_drop (m : Nat → Nat) (a : Nat) (l : List Nat) :
    ∀ n k, k + n = l.length →
      readBytes (writeBytes m a l) (a + k) n = l.drop k := by
  intro n
  induction n with
  | zero =>
    intro k hk
    rw [readBytes, eq_comm, List.drop_eq_nil_iff]
    omega
  | succ j ih =>
    intro k hk
    have hklt : k < l.length := by omega
    rw [readBytes, writeBytes_apply_in m a l (a + k) (by omega) (by omega)]
    have : a + k + 1 = a + (k + 1) := by omega
    rw [this, ih (k + 1) (by omega), List.drop_eq_getElem_cons hklt]
    congr 1
    have : a + k - a = k := by omega
    rw [this, List.getD_eq_getElem l 0 hklt]

/-- Reading back exactly a written range yields the written list. -/
theorem readBytes_writeBytes_same (m : Nat → Nat) (a : Nat) (l : List Nat) :
    readBytes (writeBytes m a l) a l.length = l := by
  have := readBytes_writeBytes_drop m a l l.length 0 (by omega)
  simpa using this

/-- Big-endian 4-byte encoding of the low 32 bits (Rust `u32::to_be_bytes`). -/
def toBE4 (n : Nat) : List Nat :=
  [n / 2 ^ 24 % 256, n / 2 ^ 16 % 256, n / 2 ^ 8 % 256, n % 256]

/-- Big-endian 8-byte encoding of the low 64 bits (Rust `u64::to_be_bytes`). -/
def toBE8 (n : Nat) : List Nat :=
  [n / 2 ^ 56 % 256, n / 2 ^ 48 % 256, n / 2 ^ 40 % 256, n / 2 ^ 32 % 256,
   n / 2 ^ 24 % 256, n / 2 ^ 16 % 256, n / 2 ^ 8 % 256, n % 256]

/-- Big-endian 16-byte encoding of the low 128 bits (Rust `u128::to_be_bytes`). -/
def toBE16 (n : Nat) : List Nat :=
  [n / 2 ^ 120 % 256, n / 2 ^ 112 % 256, n / 2 ^ 104 % 256, n / 2 ^ 96 % 256,
   n / 2 ^ 88 % 256, n / 2 ^ 80 % 256, n / 2 ^ 72 % 256, n / 2 ^ 64 % 256,
   n / 2 ^ 56 % 256, n / 2 ^ 48 % 256, n / 2 ^ 40 % 256, n / 2 ^ 32 % 256,
   n / 2 ^ 24 % 256, n / 2 ^ 16 % 256, n / 2 ^ 8 % 256, n % 256]

/-- Big-endian decoding (Rust `uNN::from_be_bytes`). -/
def fromBE (l : List Nat) : Nat := l.foldl (fun a b => a * 256 + b) 0

theorem toBE4_length (n : Nat) : (toBE4 n).length = 4 := rfl

theorem toBE8_length (n : Nat) : (toBE8 n).length = 8 := rfl

theorem toBE16_length (n : Nat) : (toBE16 n).length = 16 := rfl

theorem fromBE_toBE4 (n : Nat) (h : n < 2 ^ 32) : fromBE (toBE4 n) = n := by
  simp only [toBE4, fromBE, List.foldl]
  omega

theorem fromBE_toBE8 (n : Nat) (h : n < 2 ^ 64) : fromBE (toBE8 n) = n := by
  simp only [toBE8, fromBE, List.foldl]
  omega

theorem fromBE_foldl_acc (acc : Nat) (l : List Nat) :
    l.foldl (fun a b => a * 256 + b) acc = acc * 256 ^ l.length + fromBE l := by
  induction l generalizing acc with
  | nil => simp [fromBE]
  | cons b t ih =>
    have h1 := ih (acc * 256 + b)
    have h2 := ih b
    simp only [List.foldl_cons, List.length_cons]
    rw [h1]
    have hcons : fromBE (b :: t) = t.foldl (fun a b => a * 256 + b) b := by
      simp [fromBE]
    rw [hcons, h2]
    ring

theorem fromBE_append (l1 l2 : List Nat) :
    fromBE (l1 ++ l2) = fromBE l1 * 256 ^ l2.length + fromBE l2 := by
  rw [fromBE, List.foldl_append]
  exact fromBE_foldl_acc _ l2

theorem toBE16_eq_append (n : Nat) :
    toBE16 n = toBE8 (n / 2 ^ 64) ++ toBE8 (n % 2 ^ 64) := by
  simp only [toBE16, toBE8, List.cons_append, List.nil_append, List.cons.injEq,
    and_true, true_and]
  omega

theorem fromBE_toBE16 (n : Nat) (h : n < 2 ^ 128) : fromBE (toBE16 n) = n := by
  rw [toBE16_eq_append, fromBE_append, toBE8_length,
    fromBE_toBE8 _ (by omega), fromBE_toBE8 _ (by omega)]
  have h256 : (256 : Nat) ^ 8 = 2 ^ 64 := by norm_num
  rw [h256]
  omega

/-! ### Metapage layout constants (`page_manager.rs`, lines 14-34) -/

def MAGICNUMBER : List Nat := [114, 101, 100, 98]

def VERSION_OFFSET : Nat := MAGICNUMBER.length

def PAGE_SIZE_OFFSET : Nat := VERSION_OFFSET + 1

/-- Offset of the stored `db_size`; in the source this is
`PAGE_SIZE_OFFSET + size_of::<u64>()`. -/
def DB_SIZE_OFFSET : Nat := PAGE_SIZE_OFFSET + 8

def PRIMARY_BIT_OFFSET : Nat := DB_SIZE_OFFSET + 8

def TRANSACTION_SIZE : Nat := 128

def TRANSACTION_0_OFFSET : Nat := 128

def TRANSACTION_1_OFFSET : Nat := TRANSACTION_0_OFFSET + TRANSACTION_SIZE

def DB_METAPAGE_SIZE : Nat := TRANSACTION_1_OFFSET + TRANSACTION_SIZE

/-! ### Transaction-slot field offsets (relative to the slot base) -/

def ROOT_PAGE_OFFSET : Nat := 0

def ROOT_PAGE_MESSAGE_BYTES_OFFSET : Nat := ROOT_PAGE_OFFSET + 8

def TRANSACTION_ID_OFFSET : Nat := ROOT_PAGE_MESSAGE_BYTES_OFFSET + 4

def ALLOCATOR_STATE_PTR_OFFSET : Nat := TRANSACTION_ID_OFFSET + 16

def ALLOCATOR_STATE_LEN_OFFSET : Nat := ALLOCATOR_STATE_PTR_OFFSET + 8

def ALLOCATOR_STATE_DIRTY_OFFSET : Nat := ALLOCATOR_STATE_LEN_OFFSET + 8

/-! ### Page identity (`PageNumber`) -/

/-- A page identifier: `page_index` is a `u64` holding 48 significant bits and
`page_order` a `u8` (`page_manager.rs`, lines 85-89). -/
structure PageNumber where
  page_index : Nat
  page_order : Nat
deriving DecidableEq, Repr

namespace PageNumber

/-- `PageNumber::to_be_bytes`: `temp = page_index; temp |= order << 48;
temp.to_be_bytes()`. -/
def to_be_bytes (pn : PageNumber) : List Nat :=
  toBE8 (pn.page_index ||| pn.page_order <<< 48)

/-- `PageNumber::from_be_bytes`: mask out the low 48 bits for the index and
take the (u8-truncated) top of the shifted value for the order. -/
def from_be_bytes (bytes : List Nat) : PageNumber :=
  let temp := fromBE bytes
  ⟨temp &&& 0xFFFFFFFFFFFF, temp >>> 48 % 256⟩

/-- `PageNumber::address_range`: `index * 2^order * page_size ..
(index+1) * 2^order * page_size`. -/
def address_range (pn : PageNumber) (page_size : Nat) : Nat × Nat :=
  (pn.page_index * 2 ^ pn.page_order * page_size,
   (pn.page_index + 1) * (2 ^ pn.page_order) * page_size)

/-- `PageNumber::page_size_bytes`. -/
def page_size_bytes (pn : PageNumber) (page_size : Nat) : Nat :=
  2 ^ pn.page_order * page_size

end PageNumber

theorem or_shift48_eq_add (idx ord : Nat) (hidx : idx < 2 ^ 48) :
    idx ||| ord <<< 48 = ord * 2 ^ 48 + idx := by
  have h48 : ord * 2 ^ 48 + idx = 2 ^ 48 * ord + idx := by ring
  apply Nat.eq_of_testBit_eq
  intro j
  rw [Nat.testBit_or, Nat.testBit_shiftLeft, h48, Nat.testBit_mul_pow_two_add ord hidx j]
  rcases Nat.lt_or_ge j 48 with hj | hj
  · simp [hj, show ¬ (48 ≤ j) by omega]
  · have hidxbit : idx.testBit j = false := Nat.testBit_lt_two_pow (by
      calc idx < 2 ^ 48 := hidx
      _ ≤ 2 ^ j := Nat.pow_le_pow_right (by omega) hj)
    simp [show ¬ (j < 48) by omega, show 48 ≤ j from hj, hidxbit]

/-- Decoding an encoded page number restores it (for in-range fields). -/
theorem from_be_bytes_to_be_bytes (pn : PageNumber)
    (hidx : pn.page_index < 2 ^ 48) (hord : pn.page_order < 2 ^ 8) :
    PageNumber.from_be_bytes (PageNumber.to_be_bytes pn) = pn := by
  obtain ⟨idx, ord⟩ := pn
  have hidx2 : idx < 2 ^ 48 := hidx
  have hord2 : ord < 2 ^ 8 := hord
  simp only [PageNumber.to_be_bytes, PageNumber.from_be_bytes]
  have hor : idx ||| ord <<< 48 = ord * 2 ^ 48 + idx := or_shift48_eq_add idx ord hidx2
  have hlt : idx ||| ord <<< 48 < 2 ^ 64 := by
    rw [hor]
    have : ord * 2 ^ 48 ≤ (2 ^ 8 - 1) * 2 ^ 48 := by
      apply Nat.mul_le_mul_right
      omega
    omega
  rw [fromBE_toBE8 _ hlt, hor]
  have hmask : (ord * 2 ^ 48 + idx) &&& 0xFFFFFFFFFFFF = idx := by
    have h : (0xFFFFFFFFFFFF : Nat) = 2 ^ 48 - 1 := by norm_num
    rw [h, Nat.and_pow_two_sub_one_eq_mod]
    have h48 : (2 : Nat) ^ 48 = 281474976710656 := by norm_num
    rw [h48] at hidx2 ⊢
    omega
  have hshift : (ord * 2 ^ 48 + idx) >>> 48 % 256 = ord := by
    rw [Nat.shiftRight_eq_div_pow]
    have h48 : (2 : Nat) ^ 48 = 281474976710656 := by norm_num
    have h8 : (2 : Nat) ^ 8 = 256 := by norm_num
    rw [h48] at hidx2 ⊢
    rw [h8] at hord2
    omega
  rw [hmask, hshift]

/-! ### The external page allocator, modelled from the spec -/

/-- Modelled from the spec: the external `PageAllocator` data structure is not
part of this repository (only `page_manager.rs` is); §4.2 of the spec treats it
as an abstract bitmap over `npages` usable pages.  The persistent state is the
set of allocated page indexes. -/
structure AllocState where
  allocated : Finset Nat
  npages : Nat
deriving DecidableEq

namespace AllocState

/-- Modelled from the spec: `alloc(buf) -> Option<index>` returns a free index
or none and marks it allocated (here: the least free index below `npages`). -/
def alloc (s : AllocState) : Option (Nat × AllocState) :=
  match (List.range s.npages).find? (fun i => decide (i ∉ s.allocated)) with
  | some i => some (i, ⟨insert i s.allocated, s.npages⟩)
  | none => none

/-- Modelled from the spec: `record_alloc(buf, index)` forcibly marks `index`
allocated. -/
def record_alloc (s : AllocState) (i : Nat) : AllocState :=
  ⟨insert i s.allocated, s.npages⟩

/-- Modelled from the spec: `free(buf, index)` marks `index` free. -/
def free (s : AllocState) (i : Nat) : AllocState :=
  ⟨s.allocated.erase i, s.npages⟩

/-- Modelled from the spec: `count_free_pages(buf)` counts the free indexes. -/
def count_free_pages (s : AllocState) : Nat :=
  ((Finset.range s.npages).filter (fun i => i ∉ s.allocated)).card

end AllocState

/-! ### Observable effects -/

/-- An observable effect of a `TransactionalMemory` operation: a metapage byte
write (address and written bytes), a mutation of the allocator region that
starts at `key`, or an `mmap.flush()`. -/
inductive Ev where
  | write (addr : Nat) (vals : List Nat)
  | region (key : Nat)
  | flush
deriving DecidableEq, Repr

/-! ### Metapage codec (`get_primary`/`get_secondary`, accessor and mutator) -/

/-- Base offset of the primary transaction slot (`get_primary`). -/
def primaryOffset (m : Nat → Nat) : Nat :=
  if m PRIMARY_BIT_OFFSET = 0 then TRANSACTION_0_OFFSET else TRANSACTION_1_OFFSET

/-- Base offset of the secondary transaction slot (`get_secondary`). -/
def secondaryOffset (m : Nat → Nat) : Nat :=
  if m PRIMARY_BIT_OFFSET = 0 then TRANSACTION_1_OFFSET else TRANSACTION_0_OFFSET

/-- `TransactionMutator::set_root_page` on the slot based at `slot`. -/
def set_root_page (m : Nat → Nat) (slot : Nat) (pn : PageNumber) (v : Nat) : Nat → Nat :=
  writeBytes (writeBytes m (slot + ROOT_PAGE_OFFSET) pn.to_be_bytes)
    (slot + ROOT_PAGE_MESSAGE_BYTES_OFFSET) (toBE4 v)

/-- `TransactionAccessor::get_root_page`. -/
def get_root_page (m : Nat → Nat) (slot : Nat) : Option (PageNumber × Nat) :=
  let num := PageNumber.from_be_bytes (readBytes m (slot + ROOT_PAGE_OFFSET) 8)
  let message_bytes := fromBE (readBytes m (slot + ROOT_PAGE_MESSAGE_BYTES_OFFSET) 4)
  if num.page_index = 0 then none else some (num, message_bytes)

/-- `TransactionMutator::set_last_committed_transaction_id`. -/
def set_last_committed_transaction_id (m : Nat → Nat) (slot : Nat) (t : Nat) : Nat → Nat :=
  writeBytes m (slot + TRANSACTION_ID_OFFSET) (toBE16 t)

/-- `TransactionAccessor::get_last_committed_transaction_id`. -/
def get_last_committed_transaction_id (m : Nat → Nat) (slot : Nat) : Nat :=
  fromBE (readBytes m (slot + TRANSACTION_ID_OFFSET) 16)

/-- `TransactionMutator::set_allocator_data`. -/
def set_allocator_data (m : Nat → Nat) (slot : Nat) (start len : Nat) : Nat → Nat :=
  writeBytes (writeBytes m (slot + ALLOCATOR_STATE_PTR_OFFSET) (toBE8 start))
    (slot + ALLOCATOR_STATE_LEN_OFFSET) (toBE8 len)

/-- `TransactionMutator::get_allocator_data`: returns `(start, start + len)`. -/
def get_allocator_data (m : Nat → Nat) (slot : Nat) : Nat × Nat :=
  let start := fromBE (readBytes m (slot + ALLOCATOR_STATE_PTR_OFFSET) 8)
  let len := fromBE (readBytes m (slot + ALLOCATOR_STATE_LEN_OFFSET) 8)
  (start, start + len)

/-- `TransactionMutator::set_allocator_dirty`. -/
def set_allocator_dirty (m : Nat → Nat) (slot : Nat) (dirty : Bool) : Nat → Nat :=
  writeBytes m (slot + ALLOCATOR_STATE_DIRTY_OFFSET) [if dirty then 1 else 0]

/-- `get_allocator_dirty`: `0` is clean, `1` is dirty, anything else is
`unreachable!` (modelled as `none`). -/
def get_allocator_dirty (m : Nat → Nat) (slot : Nat) : Option Bool :=
  match m (slot + ALLOCATOR_STATE_DIRTY_OFFSET) with
  | 0 => some false
  | 1 => some true
  | _ => none

/-! ### Transactional memory state -/

/-- The state of a `TransactionalMemory`.  `mem` is the memory-mapped file
(metapage bytes and page data); the two allocator regions are kept separately
in `regions`, keyed by their start offset, because the external allocator's
byte format is not part of this repository. -/
structure TxnMem where
  mem : Nat → Nat
  len : Nat
  regions : Nat → AllocState
  allocated_since_commit : List PageNumber
  freed_since_commit : List PageNumber
  open_dirty_pages : Finset PageNumber
  read_from_secondary : Bool
  page_size : Nat

/-- Point update of the allocator-region store. -/
def updateRegion (r : Nat → AllocState) (key : Nat) (a : AllocState) : Nat → AllocState :=
  fun k => if k = key then a else r k

/-- `TransactionalMemory::acquire_mutable_page_allocator` on the slot based at
`slot`: dirty the slot and flush if it was clean, then look up the allocator
region recorded in the slot; `assert!(end <= self.mmap.len())`. -/
def acquire_mutable_page_allocator (s : TxnMem) (slot : Nat) :
    Option (Nat × TxnMem × List Ev) :=
  match get_allocator_dirty s.mem slot with
  | none => none
  | some d =>
    let m1 := if d then s.mem else set_allocator_dirty s.mem slot true
    let evs : List Ev :=
      if d then [] else [Ev.write (slot + ALLOCATOR_STATE_DIRTY_OFFSET) [1], Ev.flush]
    let data := get_allocator_data m1 slot
    if data.2 ≤ s.len then some (data.1, { s with mem := m1 }, evs) else none

/-- Replay `record_alloc` for each page number in the list onto the region at
`key` (the drain loops in `commit`, `non_durable_commit` and
`rollback_uncommited_writes`); each iteration has
`assert_eq!(page_number.page_order, 0)`. -/
def record_alloc_list (r : Nat → AllocState) (key : Nat) :
    List PageNumber → Option ((Nat → AllocState) × List Ev)
  | [] => some (r, [])
  | pn :: rest =>
    if pn.page_order = 0 then
      match record_alloc_list (updateRegion r key ((r key).record_alloc pn.page_index)) key rest with
      | none => none
      | some (r2, evs) => some (r2, Ev.region key :: evs)
    else none

/-- Replay `free` for each page number in the list onto the region at `key`;
each iteration has `assert_eq!(page_number.page_order, 0)`. -/
def free_list (r : Nat → AllocState) (key : Nat) :
    List PageNumber → Option ((Nat → AllocState) × List Ev)
  | [] => some (r, [])
  | pn :: rest =>
    if pn.page_order = 0 then
      match free_list (updateRegion r key ((r key).free pn.page_index)) key rest with
      | none => none
      | some (r2, evs) => some (r2, Ev.region key :: evs)
    else none

/-- `TransactionalMemory::commit` (lines 492-536): publish the secondary slot
as the new primary.  Writes the transaction id into the secondary slot,
flushes, clears the secondary dirty flag, flips the primary bit, dirties the
new secondary, flushes, and replays the in-memory allocation deltas onto the
new secondary allocator region. -/
def commit (s : TxnMem) (transaction_id : Nat) : Option (Unit × TxnMem × List Ev) :=
  if s.open_dirty_pages = ∅ then
    let sec := secondaryOffset s.mem
    let m1 := set_last_committed_transaction_id s.mem sec transaction_id
    -- self.mmap.flush()?
    match m1 PRIMARY_BIT_OFFSET with
    | 0 | 1 =>
      let next : Nat := if m1 PRIMARY_BIT_OFFSET = 0 then 1 else 0
      let m2 := set_allocator_dirty m1 sec false
      let m3 := writeBytes m2 PRIMARY_BIT_OFFSET [next]
      let sec2 := secondaryOffset m3
      let m4 := set_allocator_dirty m3 sec2 true
      -- self.mmap.flush()?
      match acquire_mutable_page_allocator { s with mem := m4 } sec2 with
      | none => none
      | some (key, s5, evs0) =>
        match record_alloc_list s5.regions key s.allocated_since_commit with
        | none => none
        | some (r1, ev1) =>
          match free_list r1 key s.freed_since_commit with
          | none => none
          | some (r2, ev2) =>
            some ((), { s5 with
                regions := r2
                allocated_since_commit := []
                freed_since_commit := []
                read_from_secondary := false },
              [Ev.write (sec + TRANSACTION_ID_OFFSET) (toBE16 transaction_id), Ev.flush,
               Ev.write (sec + ALLOCATOR_STATE_DIRTY_OFFSET) [0],
               Ev.write PRIMARY_BIT_OFFSET [next],
               Ev.write (sec2 + ALLOCATOR_STATE_DIRTY_OFFSET) [1], Ev.flush]
              ++ evs0 ++ ev1 ++ ev2)
    | _ => none
  else none

/-- `TransactionalMemory::non_durable_commit` (lines 539-572): write the
transaction id into the secondary slot, dirty the primary slot (flushing if it
was clean), replay `allocated_since_commit` onto the primary allocator region,
and route subsequent reads to the secondary slot. -/
def non_durable_commit (s : TxnMem) (transaction_id : Nat) : Option (Unit × TxnMem × List Ev) :=
  if s.open_dirty_pages = ∅ then
    let sec := secondaryOffset s.mem
    let m1 := set_last_committed_transaction_id s.mem sec transaction_id
    let pri := primaryOffset m1
    match get_allocator_dirty m1 pri with
    | none => none
    | some d =>
      let m2 := if d then m1 else set_allocator_dirty m1 pri true
      let ev2 : List Ev :=
        if d then [] else [Ev.write (pri + ALLOCATOR_STATE_DIRTY_OFFSET) [1], Ev.flush]
      match acquire_mutable_page_allocator { s with mem := m2 } pri with
      | none => none
      | some (key, s1, evs) =>
        match record_alloc_list s1.regions key s.allocated_since_commit with
        | none => none
        | some (r1, ev1) =>
          if s.freed_since_commit = [] then
            some ((), { s1 with
                regions := r1
                allocated_since_commit := []
                read_from_secondary := true },
              [Ev.write (sec + TRANSACTION_ID_OFFSET) (toBE16 transaction_id)]
              ++ ev2 ++ evs ++ ev1)
          else none
  else none

/-- `TransactionalMemory::rollback_uncommited_writes` (lines 574-592): free
every page allocated since the last commit and re-allocate every page freed
since the last commit, in the secondary allocator region. -/
def rollback_uncommited_writes (s : TxnMem) : Option (Unit × TxnMem × List Ev) :=
  if s.open_dirty_pages = ∅ then
    let sec := secondaryOffset s.mem
    match acquire_mutable_page_allocator s sec with
    | none => none
    | some (key, s1, evs) =>
      match free_list s1.regions key s.allocated_since_commit with
      | none => none
      | some (r1, ev1) =>
        match record_alloc_list r1 key s.freed_since_commit with
        | none => none
        | some (r2, ev2) =>
          some ((), { s1 with
              regions := r2
              allocated_since_commit := []
              freed_since_commit := [] }, evs ++ ev1 ++ ev2)
  else none

/-- An immutable page view (`PageImpl`): the bytes of the page's address range
and its page number. -/
structure PageImpl where
  mem : List Nat
  page_number : PageNumber
deriving DecidableEq, Repr

/-- `TransactionalMemory::get_page` (lines 594-606): asserts that no mutable
handle to the page is outstanding, then returns an immutable view of the
page's address range. -/
def get_page (s : TxnMem) (page_number : PageNumber) : Option PageImpl :=
  if page_number ∈ s.open_dirty_pages then none
  else
    let range := page_number.address_range s.page_size
    if range.2 ≤ s.len then
      some ⟨readBytes s.mem range.1 (range.2 - range.1), page_number⟩
    else none

/-- `TransactionalMemory::get_page_mut` (lines 608-626): registers the page in
`open_dirty_pages` (with no membership check) and returns a mutable view of
the page's address range. -/
def get_page_mut (s : TxnMem) (page_number : PageNumber) : Option (PageImpl × TxnMem) :=
  let s1 := { s with open_dirty_pages := insert page_number s.open_dirty_pages }
  let range := page_number.address_range s.page_size
  if range.2 ≤ s.len then
    some (⟨readBytes s.mem range.1 (range.2 - range.1), page_number⟩, s1)
  else none

/-- `Drop for PageMut` (lines 316-320): dropping a mutable handle removes its
page from `open_dirty_pages`. -/
def dropPage (s : TxnMem) (page_number : PageNumber) : TxnMem :=
  { s with open_dirty_pages := s.open_dirty_pages.erase page_number }

/-- `TransactionalMemory::get_primary_root_page` (lines 628-639). -/
def get_primary_root_page (s : TxnMem) : Option (PageNumber × Nat) :=
  if s.read_from_secondary then get_root_page s.mem (secondaryOffset s.mem)
  else get_root_page s.mem (primaryOffset s.mem)

/-- `TransactionalMemory::set_secondary_root_page` (lines 656-660). -/
def set_secondary_root_page (s : TxnMem) (root_page : PageNumber) (valid_message_bytes : Nat) :
    TxnMem × List Ev :=
  let sec := secondaryOffset s.mem
  ({ s with mem := set_root_page s.mem sec root_page valid_message_bytes },
   [Ev.write (sec + ROOT_PAGE_OFFSET) root_page.to_be_bytes,
    Ev.write (sec + ROOT_PAGE_MESSAGE_BYTES_OFFSET) (toBE4 valid_message_bytes)])

/-- `TransactionalMemory::allocate` (lines 694-725): asserts the requested
size fits in a page, dirties the secondary slot if needed, allocates a page
index from the secondary allocator region (`.unwrap()`: exhaustion panics),
records it in `allocated_since_commit` and `open_dirty_pages`, and zeroes the
page's bytes. -/
def allocate (s : TxnMem) (allocation_size : Nat) : Option (PageImpl × TxnMem × List Ev) :=
  if allocation_size ≤ s.page_size then
    let sec := secondaryOffset s.mem
    match acquire_mutable_page_allocator s sec with
    | none => none
    | some (key, s1, evs) =>
      match (s1.regions key).alloc with
      | none => none
      | some (idx, a2) =>
        let page_number : PageNumber := ⟨idx, 0⟩
        let s2 := { s1 with
          regions := updateRegion s1.regions key a2,
          allocated_since_commit :=
            if page_number ∈ s1.allocated_since_commit then s1.allocated_since_commit
            else page_number :: s1.allocated_since_commit,
          open_dirty_pages := insert page_number s1.open_dirty_pages }
        let range := page_number.address_range s2.page_size
        if range.2 ≤ s2.len then
          some (⟨List.replicate (range.2 - range.1) 0, page_number⟩,
            { s2 with mem := writeBytes s2.mem range.1 (List.replicate (range.2 - range.1) 0) },
            evs ++ [Ev.region key])
        else none
  else none

/-- `TransactionalMemory::count_free_pages` (lines 727-738): goes through the
mutator path (dirtying the secondary slot if it was clean) and counts the free
pages of the secondary allocator region. -/
def count_free_pages (s : TxnMem) : Option (Nat × TxnMem × List Ev) :=
  let sec := secondaryOffset s.mem
  match acquire_mutable_page_allocator s sec with
  | none => none
  | some (key, s1, evs) => some ((s1.regions key).count_free_pages, s1, evs)

/-- The fixed-point loop of `calculate_usable_pages`: each step has the
invariant that the second argument is `(mmap_size - 2 * rs guess) / ps` for
the first; the counter `i < 1000` is the remaining fuel. -/
def calcLoop (rs : Nat → Nat) (ps mmap_size : Nat) : Nat → Nat → Nat → Nat
  | guess, _, 0 => guess
  | guess, newGuess, fuel + 1 =>
    if guess = newGuess then guess
    else calcLoop rs ps mmap_size newGuess ((mmap_size - 2 * rs newGuess) / ps) fuel

/-- `TransactionalMemory::calculate_usable_pages` (lines 341-354),
parameterized by the external allocator's `required_space` (`rs`) and the OS
page size (`ps`), neither of which is part of this repository. -/
def calculate_usable_pages (rs : Nat → Nat) (ps mmap_size : Nat) : Nat :=
  let guess := mmap_size / ps
  calcLoop rs ps mmap_size guess ((mmap_size - 2 * rs guess) / ps) 1000

/-! ### Claim C2: metapage layout offsets -/

/-- C2 counterexample: the claim places `db_size` at bytes 6..14 and
`primary_bit` at byte 14, but in the source `DB_SIZE_OFFSET` is
`PAGE_SIZE_OFFSET + size_of::<u64>() = 13` and `PRIMARY_BIT_OFFSET` is
`13 + 8 = 21`. -/
theorem db_size_offset_not_six :
    DB_SIZE_OFFSET = 13 ∧ PRIMARY_BIT_OFFSET = 21 ∧
      ¬ (DB_SIZE_OFFSET = 6 ∧ PRIMARY_BIT_OFFSET = 14) := by
  decide

/-- C2 (amended): `db_size` is stored big-endian at bytes 13..21 and
`primary_bit` at byte 21 (the byte-5 page-size field is followed by an
8-byte gap because the offset arithmetic advances by `size_of::<u64>()`);
transaction slot 0 occupies bytes 128..256 and slot 1 bytes 256..384. -/
theorem metapage_layout_offsets :
    DB_SIZE_OFFSET = 13 ∧ DB_SIZE_OFFSET + 8 = 21 ∧ PRIMARY_BIT_OFFSET = 21 ∧
      TRANSACTION_0_OFFSET = 128 ∧ TRANSACTION_0_OFFSET + TRANSACTION_SIZE = 256 ∧
      TRANSACTION_1_OFFSET = 256 ∧ TRANSACTION_1_OFFSET + TRANSACTION_SIZE = 384 ∧
      DB_METAPAGE_SIZE = 384 := by
  decide

/-! ### Claim C8: page-number serialization round trip -/

/-- C8 counterexample: the order byte is not the high (first) byte of the
big-endian encoding; encoding `PageNumber(5, 3)` yields `[0,3,0,0,0,0,0,5]`,
whose high byte is `0`, not the order `3` (the order sits in bits 48..56,
the second byte). -/
theorem order_not_in_high_byte :
    PageNumber.to_be_bytes ⟨5, 3⟩ = [0, 3, 0, 0, 0, 0, 0, 5] ∧
      (PageNumber.to_be_bytes ⟨5, 3⟩).getD 0 0 ≠ 3 := by
  constructor
  · rfl
  · decide

/-- C8 (amended): for every `idx < 2^48` and `order < 2^8`, decoding the
encoding is the identity, and the encoding is big-endian with the order in
bits 48..56 (the second byte; the top byte is always zero) and the index in
the low six bytes. -/
theorem page_number_roundtrip (idx ord : Nat) (hidx : idx < 2 ^ 48) (hord : ord < 2 ^ 8) :
    PageNumber.from_be_bytes (PageNumber.to_be_bytes ⟨idx, ord⟩) = ⟨idx, ord⟩ ∧
      PageNumber.to_be_bytes ⟨idx, ord⟩ = [0, ord] ++ (toBE8 idx).drop 2 := by
  refine ⟨from_be_bytes_to_be_bytes ⟨idx, ord⟩ hidx hord, ?_⟩
  have hor : idx ||| ord <<< 48 = ord * 2 ^ 48 + idx := or_shift48_eq_add idx ord hidx
  simp only [PageNumber.to_be_bytes, hor, toBE8, List.drop, List.cons_append,
    List.nil_append, List.cons.injEq, and_true, true_and]
  have h48 : (2 : Nat) ^ 48 = 281474976710656 := by norm_num
  rw [h48] at hidx ⊢
  have h8 : (2 : Nat) ^ 8 = 256 := by norm_num
  rw [h8] at hord
  repeat' apply And.intro
  all_goals omega

/-- C8 witness: the amended round trip at `idx = 5`, `order = 3`. -/
theorem page_number_roundtrip_witness :
    (5 : Nat) < 2 ^ 48 ∧ (3 : Nat) < 2 ^ 8 ∧
      (PageNumber.from_be_bytes (PageNumber.to_be_bytes ⟨5, 3⟩) = ⟨5, 3⟩ ∧
        PageNumber.to_be_bytes ⟨5, 3⟩ = [0, 3] ++ (toBE8 5).drop 2) :=
  ⟨by decide, by decide, page_number_roundtrip 5 3 (by decide) (by decide)⟩

/-! ### Claim C7: the usable-page fixed-point iteration -/

/-- Helper: the loop either stops at a fixed point of
`f = fun n => (mmap_size - 2 * rs n) / ps` or runs out of fuel and returns the
`fuel`-th iterate. -/
theorem calcLoop_spec (rs : Nat → Nat) (ps S : Nat) :
    ∀ fuel g,
      calcLoop rs ps S g ((S - 2 * rs g) / ps) fuel =
          (S - 2 * rs (calcLoop rs ps S g ((S - 2 * rs g) / ps) fuel)) / ps ∨
        calcLoop rs ps S g ((S - 2 * rs g) / ps) fuel =
          (fun n => (S - 2 * rs n) / ps)^[fuel] g := by
  intro fuel
  induction fuel with
  | zero => intro g; right; rfl
  | succ k ih =>
    intro g
    by_cases hg : g = (S - 2 * rs g) / ps
    · left
      simp only [calcLoop, if_pos hg]
      exact hg
    · simp only [calcLoop, if_neg hg]
      rcases ih ((S - 2 * rs g) / ps) with h | h
      · left; exact h
      · right
        rw [h, Function.iterate_succ_apply]

/-- C7 (amended): `calculate_usable_pages` iterates
`n ↦ (S - 2·required_space(n)) / page_size` with a cap of 1000 iterations and
always returns a value: either a fixed point of the iteration, or (when the
cap is hit without convergence) the 1000th iterate — initialization does not
fail with an error. -/
theorem calculate_usable_pages_dichotomy (rs : Nat → Nat) (ps S : Nat) :
    calculate_usable_pages rs ps S =
        (S - 2 * rs (calculate_usable_pages rs ps S)) / ps ∨
      calculate_usable_pages rs ps S =
        (fun n => (S - 2 * rs n) / ps)^[1000] (S / ps) := by
  unfold calculate_usable_pages
  exact calcLoop_spec rs ps S 1000 (S / ps)

/-- Modelled from the spec: a `required_space` function on which the
fixed-point iteration oscillates between 8 and 10 forever (the external
allocator's real `required_space` is not part of this repository). -/
def oscillatingRS (n : Nat) : Nat := if n = 10 then 1 else 0

set_option maxRecDepth 4000 in
/-- C7 counterexample: with an oscillating `required_space`, the iteration
hits the 1000-iteration cap without converging, yet `calculate_usable_pages`
returns the current guess (10) normally — initialization does not fail with
an error. -/
theorem calculate_usable_pages_no_error_on_divergence :
    calculate_usable_pages oscillatingRS 1 10 = 10 ∧
      (10 : Nat) ≠ (10 - 2 * oscillatingRS 10) / 1 := by
  constructor
  · decide
  · decide

/-! ### Concrete states used by counterexamples and witnesses -/

/-- A metapage image: primary bit 0 (so the secondary slot is slot 1 at byte
256), secondary allocator region at bytes 1000..1100, secondary slot already
dirty. -/
def memFull : Nat → Nat :=
  writeBytes (writeBytes (writeBytes (fun _ => 0) 284 (toBE8 1000)) 292 (toBE8 100)) 300 [1]

/-- A state whose secondary allocator region has all four usable pages
allocated (allocator exhaustion). -/
def stFull : TxnMem :=
  ⟨memFull, 1200, fun _ => ⟨Finset.range 4, 4⟩, [], [], ∅, false, 4096⟩

/-- Like `memFull` but with the secondary slot clean (dirty byte 300 is 0). -/
def memClean : Nat → Nat :=
  writeBytes (writeBytes (fun _ => 0) 284 (toBE8 1000)) 292 (toBE8 100)

/-- A state with a clean secondary slot and only the metapage allocated. -/
def stClean : TxnMem :=
  ⟨memClean, 1200, fun _ => ⟨{0}, 4⟩, [], [], ∅, false, 4096⟩

/-! ### Claim C3: allocate on exhaustion -/

/-- C3: when the secondary allocator region has no free page, `allocate`
panics (`self.page_allocator.alloc(mem).unwrap()` on `None`, modelled as
`none`) instead of returning a recoverable out-of-space error; its return
type `PageMut` has no error case at all. -/
theorem allocate_panics_on_exhaustion :
    (stFull.regions 1000).count_free_pages = 0 ∧ allocate stFull 64 = none := by
  constructor
  · decide
  · rfl

/-! ### Claim C9: get_page exclusivity -/

/-- C9: `get_page(pn)` fails (assertion, modelled as `none`) while a mutable
handle to `pn` is outstanding, and otherwise returns an immutable view of
exactly the bytes in the page's address range. -/
theorem get_page_exclusivity (s : TxnMem) (pn1 pn2 : PageNumber)
    (h1 : pn1 ∈ s.open_dirty_pages) (h2 : pn2 ∉ s.open_dirty_pages)
    (hb : (pn2.address_range s.page_size).2 ≤ s.len) :
    get_page s pn1 = none ∧
      get_page s pn2 = some ⟨readBytes s.mem (pn2.address_range s.page_size).1
        ((pn2.address_range s.page_size).2 - (pn2.address_range s.page_size).1), pn2⟩ := by
  constructor
  · unfold get_page
    rw [if_pos h1]
  · unfold get_page
    rw [if_neg h2, if_pos hb]

/-- A state with one outstanding mutable handle, to page `(1, 0)`. -/
def stOpen : TxnMem :=
  ⟨fun _ => 0, 8192, fun _ => ⟨{0}, 2⟩, [], [], {⟨1, 0⟩}, false, 4096⟩

/-- C9 witness: in `stOpen`, `get_page` on the open page `(1,0)` fails and on
the closed page `(0,0)` returns its 4096-byte range. -/
theorem get_page_exclusivity_witness :
    ((⟨1, 0⟩ : PageNumber) ∈ stOpen.open_dirty_pages ∧
      (⟨0, 0⟩ : PageNumber) ∉ stOpen.open_dirty_pages ∧
      ((⟨0, 0⟩ : PageNumber).address_range stOpen.page_size).2 ≤ stOpen.len) ∧
    (get_page stOpen ⟨1, 0⟩ = none ∧
      get_page stOpen ⟨0, 0⟩ = some ⟨readBytes stOpen.mem
        (((⟨0, 0⟩ : PageNumber).address_range stOpen.page_size)).1
        ((((⟨0, 0⟩ : PageNumber).address_range stOpen.page_size)).2 -
          (((⟨0, 0⟩ : PageNumber).address_range stOpen.page_size)).1), ⟨0, 0⟩⟩) :=
  ⟨⟨by decide, by decide, by decide⟩,
    get_page_exclusivity stOpen ⟨1, 0⟩ ⟨0, 0⟩ (by decide) (by decide) (by decide)⟩

/-! ### Claim C10: get_page_mut does not enforce exclusivity -/

/-- C10: `get_page_mut(pn)` unconditionally inserts `pn` into
`open_dirty_pages` and returns a mutable handle without checking for an
outstanding handle; in particular a second `get_page_mut` on the same page
also succeeds. -/
theorem get_page_mut_unchecked (s : TxnMem) (pn : PageNumber)
    (hb : (pn.address_range s.page_size).2 ≤ s.len) :
    ∃ h s1, get_page_mut s pn = some (h, s1) ∧
      s1.open_dirty_pages = insert pn s.open_dirty_pages ∧
      ∃ h2 s2, get_page_mut s1 pn = some (h2, s2) := by
  have heq : ∀ t : TxnMem, t.page_size = s.page_size → t.len = s.len →
      get_page_mut t pn = some (⟨readBytes t.mem (pn.address_range s.page_size).1
        ((pn.address_range s.page_size).2 - (pn.address_range s.page_size).1), pn⟩,
        { t with open_dirty_pages := insert pn t.open_dirty_pages }) := by
    intro t hps hlen
    unfold get_page_mut
    rw [hps, hlen, if_pos hb]
  exact ⟨_, _, heq s rfl rfl, rfl, _, _, heq _ rfl rfl⟩

/-- C10 witness: `get_page_mut` succeeds on page `(1,0)` of `stOpen` even
though a mutable handle to `(1,0)` is already outstanding there. -/
theorem get_page_mut_unchecked_witness :
    (((⟨1, 0⟩ : PageNumber).address_range stOpen.page_size).2 ≤ stOpen.len ∧
      (⟨1, 0⟩ : PageNumber) ∈ stOpen.open_dirty_pages) ∧
    (∃ h s1, get_page_mut stOpen ⟨1, 0⟩ = some (h, s1) ∧
      s1.open_dirty_pages = insert ⟨1, 0⟩ stOpen.open_dirty_pages ∧
      ∃ h2 s2, get_page_mut s1 ⟨1, 0⟩ = some (h2, s2)) :=
  ⟨⟨by decide, by decide⟩, get_page_mut_unchecked stOpen ⟨1, 0⟩ (by decide)⟩

/-! ### Helper lemmas for the metapage state machine -/

theorem ROOT_off : ROOT_PAGE_OFFSET = 0 := rfl

theorem MSG_off : ROOT_PAGE_MESSAGE_BYTES_OFFSET = 8 := rfl

theorem TXN_off : TRANSACTION_ID_OFFSET = 12 := rfl

theorem PTR_off : ALLOCATOR_STATE_PTR_OFFSET = 28 := rfl

theorem LEN_off : ALLOCATOR_STATE_LEN_OFFSET = 36 := rfl

theorem DIRTY_off : ALLOCATOR_STATE_DIRTY_OFFSET = 44 := rfl

theorem PBIT_off : PRIMARY_BIT_OFFSET = 21 := rfl

theorem T0_off : TRANSACTION_0_OFFSET = 128 := rfl

theorem T1_off : TRANSACTION_1_OFFSET = 256 := rfl

theorem if_false_eq_true {A : Type} (a b : A) : (if false = true then a else b) = b := rfl

theorem if_true_eq_true {A : Type} (a b : A) : (if true = true then a else b) = a := rfl

theorem secondaryOffset_cases (m : Nat → Nat) :
    secondaryOffset m = 256 ∨ secondaryOffset m = 128 := by
  unfold secondaryOffset
  split
  · left; rfl
  · right; rfl

theorem primaryOffset_cases (m : Nat → Nat) :
    primaryOffset m = 128 ∨ primaryOffset m = 256 := by
  unfold primaryOffset
  split
  · left; rfl
  · right; rfl

theorem get_allocator_dirty_of_zero (m : Nat → Nat) (slot : Nat)
    (h : m (slot + ALLOCATOR_STATE_DIRTY_OFFSET) = 0) :
    get_allocator_dirty m slot = some false := by
  unfold get_allocator_dirty
  rw [h]

theorem get_allocator_dirty_of_one (m : Nat → Nat) (slot : Nat)
    (h : m (slot + ALLOCATOR_STATE_DIRTY_OFFSET) = 1) :
    get_allocator_dirty m slot = some true := by
  unfold get_allocator_dirty
  rw [h]

theorem set_allocator_dirty_apply_same (m : Nat → Nat) (slot : Nat) (b : Bool) :
    set_allocator_dirty m slot b (slot + ALLOCATOR_STATE_DIRTY_OFFSET) =
      if b then 1 else 0 := by
  unfold set_allocator_dirty
  rw [writeBytes_apply_in _ _ _ _ (by omega) (by simp)]
  simp

theorem set_allocator_dirty_apply_out (m : Nat → Nat) (slot : Nat) (b : Bool) (x : Nat)
    (h : x ≠ slot + ALLOCATOR_STATE_DIRTY_OFFSET) :
    set_allocator_dirty m slot b x = m x := by
  unfold set_allocator_dirty
  rw [writeBytes_apply_out]
  simp only [List.length_singleton]
  omega

theorem get_allocator_data_set_allocator_dirty (m : Nat → Nat) (slot slot2 : Nat) (b : Bool)
    (h : slot2 + 45 ≤ slot ∨ slot ≤ slot2 ∧ slot2 ≥ slot) :
    get_allocator_data (set_allocator_dirty m slot2 b) slot = get_allocator_data m slot := by
  unfold get_allocator_data set_allocator_dirty
  rw [readBytes_writeBytes_disjoint _ _ _ _ _ (by
      simp only [List.length_singleton, PTR_off, DIRTY_off]
      omega),
    readBytes_writeBytes_disjoint _ _ _ _ _ (by
      simp only [List.length_singleton, LEN_off, DIRTY_off]
      omega)]

/-- `acquire_mutable_page_allocator` on an already-dirty slot: no metapage
write, no flush. -/
theorem acquire_dirty (s : TxnMem) (slot : Nat)
    (h : s.mem (slot + ALLOCATOR_STATE_DIRTY_OFFSET) = 1)
    (hb : (get_allocator_data s.mem slot).2 ≤ s.len) :
    acquire_mutable_page_allocator s slot =
      some ((get_allocator_data s.mem slot).1, s, []) := by
  unfold acquire_mutable_page_allocator
  rw [get_allocator_dirty_of_one s.mem slot h]
  simp [hb]

/-- `acquire_mutable_page_allocator` on a clean slot: the dirty byte is set
and a flush is emitted. -/
theorem acquire_clean (s : TxnMem) (slot : Nat)
    (h : s.mem (slot + ALLOCATOR_STATE_DIRTY_OFFSET) = 0)
    (hb : (get_allocator_data s.mem slot).2 ≤ s.len) :
    acquire_mutable_page_allocator s slot =
      some ((get_allocator_data s.mem slot).1,
        { s with mem := set_allocator_dirty s.mem slot true },
        [Ev.write (slot + ALLOCATOR_STATE_DIRTY_OFFSET) [1], Ev.flush]) := by
  unfold acquire_mutable_page_allocator
  rw [get_allocator_dirty_of_zero s.mem slot h]
  have hd := get_allocator_data_set_allocator_dirty s.mem slot slot true (by omega)
  simp [hd, hb]

/-! ### Claim C6: count_free_pages and the metapage -/

/-- C6 counterexample: with a clean secondary slot (dirty byte 300 = 0),
`count_free_pages` sets that metapage byte to 1 and flushes — it does not
leave the metapage bytes unchanged. -/
theorem count_free_pages_dirties_metapage :
    stClean.mem 300 = 0 ∧
      (count_free_pages stClean).map (fun r => (r.2.1.mem 300, r.2.2)) =
        some (1, [Ev.write 300 [1], Ev.flush]) := by
  constructor
  · rfl
  · rfl

/-- C6 (amended): `count_free_pages` counts the free pages of the secondary
allocator region without modifying any allocator region, but it goes through
the mutator path: when the secondary slot is clean it sets the slot's
`allocator_state_dirty` byte to 1 and flushes; only when the slot is already
dirty is the metapage left unchanged. -/
theorem count_free_pages_spec (s : TxnMem)
    (hd : s.mem (secondaryOffset s.mem + ALLOCATOR_STATE_DIRTY_OFFSET) = 0 ∨
          s.mem (secondaryOffset s.mem + ALLOCATOR_STATE_DIRTY_OFFSET) = 1)
    (hb : (get_allocator_data s.mem (secondaryOffset s.mem)).2 ≤ s.len) :
    ∃ s1 evs, count_free_pages s =
        some ((s.regions (get_allocator_data s.mem (secondaryOffset s.mem)).1).count_free_pages,
          s1, evs) ∧
      s1.regions = s.regions ∧
      s1.mem (secondaryOffset s.mem + ALLOCATOR_STATE_DIRTY_OFFSET) = 1 ∧
      (∀ x, x ≠ secondaryOffset s.mem + ALLOCATOR_STATE_DIRTY_OFFSET → s1.mem x = s.mem x) ∧
      evs = (if s.mem (secondaryOffset s.mem + ALLOCATOR_STATE_DIRTY_OFFSET) = 1
             then ([] : List Ev)
             else [Ev.write (secondaryOffset s.mem + ALLOCATOR_STATE_DIRTY_OFFSET) [1],
                   Ev.flush]) := by
  rcases hd with h | h
  · have heq : count_free_pages s =
        some ((s.regions (get_allocator_data s.mem (secondaryOffset s.mem)).1).count_free_pages,
          { s with mem := set_allocator_dirty s.mem (secondaryOffset s.mem) true },
          [Ev.write (secondaryOffset s.mem + ALLOCATOR_STATE_DIRTY_OFFSET) [1], Ev.flush]) := by
      simp only [count_free_pages, acquire_clean s _ h hb]
    refine ⟨_, _, heq, rfl, ?_, ?_, ?_⟩
    · have := set_allocator_dirty_apply_same s.mem (secondaryOffset s.mem) true
      simpa using this
    · intro x hx
      exact set_allocator_dirty_apply_out s.mem _ true x hx
    · rw [h]
      simp
  · have heq : count_free_pages s =
        some ((s.regions (get_allocator_data s.mem (secondaryOffset s.mem)).1).count_free_pages,
          s, []) := by
      simp only [count_free_pages, acquire_dirty s _ h hb]
    refine ⟨_, _, heq, rfl, h, fun x hx => rfl, ?_⟩
    simp [h]

/-- C6 witness: the amended description evaluated on `stFull`, whose secondary
slot is already dirty. -/
theorem count_free_pages_spec_witness :
    ((stFull.mem (secondaryOffset stFull.mem + ALLOCATOR_STATE_DIRTY_OFFSET) = 0 ∨
        stFull.mem (secondaryOffset stFull.mem + ALLOCATOR_STATE_DIRTY_OFFSET) = 1) ∧
      (get_allocator_data stFull.mem (secondaryOffset stFull.mem)).2 ≤ stFull.len) ∧
    (∃ s1 evs, count_free_pages stFull =
        some ((stFull.regions
            (get_allocator_data stFull.mem (secondaryOffset stFull.mem)).1).count_free_pages,
          s1, evs) ∧
      s1.regions = stFull.regions ∧
      s1.mem (secondaryOffset stFull.mem + ALLOCATOR_STATE_DIRTY_OFFSET) = 1 ∧
      (∀ x, x ≠ secondaryOffset stFull.mem + ALLOCATOR_STATE_DIRTY_OFFSET →
        s1.mem x = stFull.mem x) ∧
      evs = (if stFull.mem (secondaryOffset stFull.mem + ALLOCATOR_STATE_DIRTY_OFFSET) = 1
             then ([] : List Ev)
             else [Ev.write (secondaryOffset stFull.mem + ALLOCATOR_STATE_DIRTY_OFFSET) [1],
                   Ev.flush])) :=
  ⟨⟨Or.inr (by decide), by decide⟩,
    count_free_pages_spec stFull (Or.inr (by decide)) (by decide)⟩

/-! ### Replay-loop lemmas -/

theorem allocState_eta (a : AllocState) : (⟨a.allocated, a.npages⟩ : AllocState) = a := rfl

theorem updateRegion_self (r : Nat → AllocState) (key : Nat) :
    updateRegion r key (r key) = r := by
  funext k
  unfold updateRegion
  split
  · rename_i h
    rw [h]
  · rfl

theorem updateRegion_apply_same (r : Nat → AllocState) (key : Nat) (a : AllocState) :
    updateRegion r key a key = a := by
  unfold updateRegion
  rw [if_pos rfl]

theorem updateRegion_apply_other (r : Nat → AllocState) (key : Nat) (a : AllocState)
    (k : Nat) (h : k ≠ key) : updateRegion r key a k = r k := by
  unfold updateRegion
  rw [if_neg h]

theorem updateRegion_updateRegion (r : Nat → AllocState) (key : Nat) (a b : AllocState) :
    updateRegion (updateRegion r key a) key b = updateRegion r key b := by
  funext k
  unfold updateRegion
  split
  · rfl
  · rfl

theorem erase_sdiff_insert (A S : Finset Nat) (i : Nat) :
    (A.erase i) \ S = A \ insert i S := by
  ext x
  simp only [Finset.mem_sdiff, Finset.mem_erase, Finset.mem_insert]
  tauto

/-- Replaying `record_alloc` over a list of order-0 pages inserts their
indexes into the region at `key`. -/
theorem record_alloc_list_spec (key : Nat) :
    ∀ (l : List PageNumber) (r : Nat → AllocState),
      (∀ pn ∈ l, pn.page_order = 0) →
      record_alloc_list r key l = some (
        updateRegion r key
          ⟨(r key).allocated ∪ (l.map PageNumber.page_index).toFinset, (r key).npages⟩,
        l.map (fun _ => Ev.region key)) := by
  intro l
  induction l with
  | nil =>
    intro r _
    simp [record_alloc_list, allocState_eta, updateRegion_self]
  | cons pn rest ih =>
    intro r hord
    have h0 : pn.page_order = 0 := hord pn (by simp)
    simp only [record_alloc_list, if_pos h0]
    rw [ih _ (fun q hq => hord q (by simp [hq]))]
    simp only [AllocState.record_alloc, updateRegion_apply_same, updateRegion_updateRegion,
      List.map_cons, List.toFinset_cons]
    rw [Finset.insert_union, ← Finset.union_insert]

/-- Replaying `free` over a list of order-0 pages removes their indexes from
the region at `key`. -/
theorem free_list_spec (key : Nat) :
    ∀ (l : List PageNumber) (r : Nat → AllocState),
      (∀ pn ∈ l, pn.page_order = 0) →
      free_list r key l = some (
        updateRegion r key
          ⟨(r key).allocated \ (l.map PageNumber.page_index).toFinset, (r key).npages⟩,
        l.map (fun _ => Ev.region key)) := by
  intro l
  induction l with
  | nil =>
    intro r _
    simp [free_list, allocState_eta, updateRegion_self]
  | cons pn rest ih =>
    intro r hord
    have h0 : pn.page_order = 0 := hord pn (by simp)
    simp only [free_list, if_pos h0]
    rw [ih _ (fun q hq => hord q (by simp [hq]))]
    simp only [AllocState.free, updateRegion_apply_same, updateRegion_updateRegion,
      List.map_cons, List.toFinset_cons]
    rw [erase_sdiff_insert]

theorem readBytes_congr (m1 m2 : Nat → Nat) (a : Nat) :
    ∀ n, (∀ x, a ≤ x → x < a + n → m1 x = m2 x) →
      readBytes m1 a n = readBytes m2 a n := by
  intro n
  induction n generalizing a with
  | zero => intro _; rfl
  | succ k ih =>
    intro h
    unfold readBytes
    rw [h a (Nat.le_refl a) (by omega), ih (a + 1) (fun x h1 h2 => h x (by omega) (by omega))]

theorem get_allocator_data_congr (m1 m2 : Nat → Nat) (slot : Nat)
    (h : ∀ x, slot + 28 ≤ x → x < slot + 44 → m1 x = m2 x) :
    get_allocator_data m1 slot = get_allocator_data m2 slot := by
  unfold get_allocator_data
  rw [readBytes_congr m1 m2 _ 8 (fun x h1 h2 => by
      apply h x
      · simp only [PTR_off] at h1; omega
      · simp only [PTR_off] at h2; omega),
    readBytes_congr m1 m2 (slot + ALLOCATOR_STATE_LEN_OFFSET) 8 (fun x h1 h2 => by
      apply h x
      · simp only [LEN_off] at h1; omega
      · simp only [LEN_off] at h2; omega)]

theorem get_root_page_congr (m1 m2 : Nat → Nat) (slot : Nat)
    (h : ∀ x, slot ≤ x → x < slot + 12 → m1 x = m2 x) :
    get_root_page m1 slot = get_root_page m2 slot := by
  unfold get_root_page
  rw [readBytes_congr m1 m2 (slot + ROOT_PAGE_OFFSET) 8 (fun x h1 h2 => by
      apply h x
      · simp only [ROOT_off] at h1; omega
      · simp only [ROOT_off] at h2; omega),
    readBytes_congr m1 m2 (slot + ROOT_PAGE_MESSAGE_BYTES_OFFSET) 4 (fun x h1 h2 => by
      apply h x
      · simp only [MSG_off] at h1; omega
      · simp only [MSG_off] at h2; omega)]

theorem secondaryOffset_write_bit (m : Nat → Nat) (v : Nat) :
    secondaryOffset (writeBytes m PRIMARY_BIT_OFFSET [v]) =
      if v = 0 then TRANSACTION_1_OFFSET else TRANSACTION_0_OFFSET := by
  unfold secondaryOffset
  rw [writeBytes_apply_in _ _ _ _ (Nat.le_refl _) (by simp)]
  simp

/-- Pointwise effect of `set_last_committed_transaction_id` outside the
transaction-id field. -/
theorem set_txn_apply_out (m : Nat → Nat) (slot t x : Nat)
    (h : x < slot + 12 ∨ slot + 28 ≤ x) :
    set_last_committed_transaction_id m slot t x = m x := by
  unfold set_last_committed_transaction_id
  apply writeBytes_apply_out
  rw [toBE16_length]
  simp only [TXN_off]
  omega

/-- Full characterization of `commit`: the resulting state and the effect
trace.  There are exactly two flushes: one after the transaction-id write and
one after the primary-bit flip plus new-secondary dirtying; no flush happens
between clearing the secondary dirty flag and flipping the primary bit. -/
theorem commit_spec (s : TxnMem) (t : Nat)
    (hopen : s.open_dirty_pages = ∅)
    (hbit : s.mem PRIMARY_BIT_OFFSET = 0 ∨ s.mem PRIMARY_BIT_OFFSET = 1)
    (ha : ∀ pn ∈ s.allocated_since_commit, pn.page_order = 0)
    (hf : ∀ pn ∈ s.freed_since_commit, pn.page_order = 0)
    (hbound : (get_allocator_data s.mem (primaryOffset s.mem)).2 ≤ s.len) :
    ∃ r2, commit s t = some ((),
      { s with
        mem := set_allocator_dirty (writeBytes
          (set_allocator_dirty
            (set_last_committed_transaction_id s.mem (secondaryOffset s.mem) t)
            (secondaryOffset s.mem) false)
          PRIMARY_BIT_OFFSET [if s.mem PRIMARY_BIT_OFFSET = 0 then 1 else 0])
          (primaryOffset s.mem) true
        regions := r2
        allocated_since_commit := []
        freed_since_commit := []
        read_from_secondary := false },
      [Ev.write (secondaryOffset s.mem + TRANSACTION_ID_OFFSET) (toBE16 t), Ev.flush,
       Ev.write (secondaryOffset s.mem + ALLOCATOR_STATE_DIRTY_OFFSET) [0],
       Ev.write PRIMARY_BIT_OFFSET [if s.mem PRIMARY_BIT_OFFSET = 0 then 1 else 0],
       Ev.write (primaryOffset s.mem + ALLOCATOR_STATE_DIRTY_OFFSET) [1], Ev.flush]
      ++ s.allocated_since_commit.map
          (fun _ => Ev.region (get_allocator_data s.mem (primaryOffset s.mem)).1)
      ++ s.freed_since_commit.map
          (fun _ => Ev.region (get_allocator_data s.mem (primaryOffset s.mem)).1)) ∧
      ∀ k, k ≠ (get_allocator_data s.mem (primaryOffset s.mem)).1 →
        r2 k = s.regions k := by
  rcases hbit with hb | hb
  · have hsec : secondaryOffset s.mem = 256 := by
      unfold secondaryOffset
      rw [hb]
      decide
    have hpri : primaryOffset s.mem = 128 := by
      unfold primaryOffset
      rw [hb]
      decide
    have hnext : (if s.mem PRIMARY_BIT_OFFSET = 0 then (1 : Nat) else 0) = 1 := by
      rw [hb]
      decide
    rw [hpri] at hbound
    rw [hsec, hpri, hnext]
    have h21 : set_last_committed_transaction_id s.mem 256 t PRIMARY_BIT_OFFSET =
        s.mem PRIMARY_BIT_OFFSET :=
      set_txn_apply_out s.mem 256 t PRIMARY_BIT_OFFSET (by simp only [PBIT_off]; omega)
    have hso : secondaryOffset (writeBytes
        (set_allocator_dirty (set_last_committed_transaction_id s.mem 256 t) 256 false)
        PRIMARY_BIT_OFFSET [1]) = 128 := by
      rw [secondaryOffset_write_bit]
      rfl
    have hd4 : set_allocator_dirty (writeBytes
        (set_allocator_dirty (set_last_committed_transaction_id s.mem 256 t) 256 false)
        PRIMARY_BIT_OFFSET [1]) 128 true (128 + ALLOCATOR_STATE_DIRTY_OFFSET) = 1 := by
      have := set_allocator_dirty_apply_same (writeBytes
        (set_allocator_dirty (set_last_committed_transaction_id s.mem 256 t) 256 false)
        PRIMARY_BIT_OFFSET [1]) 128 true
      simpa using this
    have hdata : get_allocator_data (set_allocator_dirty (writeBytes
        (set_allocator_dirty (set_last_committed_transaction_id s.mem 256 t) 256 false)
        PRIMARY_BIT_OFFSET [1]) 128 true) 128 = get_allocator_data s.mem 128 := by
      apply get_allocator_data_congr
      intro x hx1 hx2
      rw [set_allocator_dirty_apply_out _ _ _ _ (by simp only [DIRTY_off]; omega)]
      rw [writeBytes_apply_out _ _ _ _ (by simp only [PBIT_off, List.length_singleton]; omega)]
      rw [set_allocator_dirty_apply_out _ _ _ _ (by simp only [DIRTY_off]; omega)]
      exact set_txn_apply_out s.mem 256 t x (by omega)
    refine ⟨updateRegion (updateRegion s.regions (get_allocator_data s.mem 128).1
        ⟨(s.regions (get_allocator_data s.mem 128).1).allocated ∪
          (s.allocated_since_commit.map PageNumber.page_index).toFinset,
          (s.regions (get_allocator_data s.mem 128).1).npages⟩)
        (get_allocator_data s.mem 128).1
        ⟨((updateRegion s.regions (get_allocator_data s.mem 128).1
            ⟨(s.regions (get_allocator_data s.mem 128).1).allocated ∪
              (s.allocated_since_commit.map PageNumber.page_index).toFinset,
              (s.regions (get_allocator_data s.mem 128).1).npages⟩)
            (get_allocator_data s.mem 128).1).allocated \
            (s.freed_since_commit.map PageNumber.page_index).toFinset,
          ((updateRegion s.regions (get_allocator_data s.mem 128).1
            ⟨(s.regions (get_allocator_data s.mem 128).1).allocated ∪
              (s.allocated_since_commit.map PageNumber.page_index).toFinset,
              (s.regions (get_allocator_data s.mem 128).1).npages⟩)
            (get_allocator_data s.mem 128).1).npages⟩, ?_, ?_⟩
    · unfold commit
      rw [if_pos hopen, hsec]
      dsimp only
      rw [h21, hb]
      simp only [reduceIte]
      rw [hso]
      rw [acquire_dirty _ 128 hd4 (by rw [hdata]; exact hbound)]
      dsimp only
      rw [hdata, record_alloc_list_spec _ _ _ ha]
      dsimp only
      rw [free_list_spec _ _ _ hf]
      dsimp only
      simp
    · intro k hk
      rw [updateRegion_updateRegion, updateRegion_apply_other _ _ _ _ hk]
  · have hsec : secondaryOffset s.mem = 128 := by
      unfold secondaryOffset
      rw [hb]
      decide
    have hpri : primaryOffset s.mem = 256 := by
      unfold primaryOffset
      rw [hb]
      decide
    have hnext : (if s.mem PRIMARY_BIT_OFFSET = 0 then (1 : Nat) else 0) = 0 := by
      rw [hb]
      decide
    rw [hpri] at hbound
    rw [hsec, hpri, hnext]
    have h21 : set_last_committed_transaction_id s.mem 128 t PRIMARY_BIT_OFFSET =
        s.mem PRIMARY_BIT_OFFSET :=
      set_txn_apply_out s.mem 128 t PRIMARY_BIT_OFFSET (by simp only [PBIT_off]; omega)
    have hso : secondaryOffset (writeBytes
        (set_allocator_dirty (set_last_committed_transaction_id s.mem 128 t) 128 false)
        PRIMARY_BIT_OFFSET [0]) = 256 := by
      rw [secondaryOffset_write_bit]
      rfl
    have hd4 : set_allocator_dirty (writeBytes
        (set_allocator_dirty (set_last_committed_transaction_id s.mem 128 t) 128 false)
        PRIMARY_BIT_OFFSET [0]) 256 true (256 + ALLOCATOR_STATE_DIRTY_OFFSET) = 1 := by
      have := set_allocator_dirty_apply_same (writeBytes
        (set_allocator_dirty (set_last_committed_transaction_id s.mem 128 t) 128 false)
        PRIMARY_BIT_OFFSET [0]) 256 true
      simpa using this
    have hdata : get_allocator_data (set_allocator_dirty (writeBytes
        (set_allocator_dirty (set_last_committed_transaction_id s.mem 128 t) 128 false)
        PRIMARY_BIT_OFFSET [0]) 256 true) 256 = get_allocator_data s.mem 256 := by
      apply get_allocator_data_congr
      intro x hx1 hx2
      rw [set_allocator_dirty_apply_out _ _ _ _ (by simp only [DIRTY_off]; omega)]
      rw [writeBytes_apply_out _ _ _ _ (by simp only [PBIT_off, List.length_singleton]; omega)]
      rw [set_allocator_dirty_apply_out _ _ _ _ (by simp only [DIRTY_off]; omega)]
      exact set_txn_apply_out s.mem 128 t x (by omega)
    refine ⟨updateRegion (updateRegion s.regions (get_allocator_data s.mem 256).1
        ⟨(s.regions (get_allocator_data s.mem 256).1).allocated ∪
          (s.allocated_since_commit.map PageNumber.page_index).toFinset,
          (s.regions (get_allocator_data s.mem 256).1).npages⟩)
        (get_allocator_data s.mem 256).1
        ⟨((updateRegion s.regions (get_allocator_data s.mem 256).1
            ⟨(s.regions (get_allocator_data s.mem 256).1).allocated ∪
              (s.allocated_since_commit.map PageNumber.page_index).toFinset,
              (s.regions (get_allocator_data s.mem 256).1).npages⟩)
            (get_allocator_data s.mem 256).1).allocated \
            (s.freed_since_commit.map PageNumber.page_index).toFinset,
          ((updateRegion s.regions (get_allocator_data s.mem 256).1
            ⟨(s.regions (get_allocator_data s.mem 256).1).allocated ∪
              (s.allocated_since_commit.map PageNumber.page_index).toFinset,
              (s.regions (get_allocator_data s.mem 256).1).npages⟩)
            (get_allocator_data s.mem 256).1).npages⟩, ?_, ?_⟩
    · unfold commit
      rw [if_pos hopen, hsec]
      dsimp only
      rw [h21, hb]
      simp only [reduceIte]
      rw [show (if (1 : Nat) = 0 then (1 : Nat) else 0) = 0 from by decide]
      rw [hso]
      rw [acquire_dirty _ 256 hd4 (by rw [hdata]; exact hbound)]
      dsimp only
      rw [hdata, record_alloc_list_spec _ _ _ ha]
      dsimp only
      rw [free_list_spec _ _ _ hf]
      dsimp only
      simp
    · intro k hk
      rw [updateRegion_updateRegion, updateRegion_apply_other _ _ _ _ hk]

theorem to_be_bytes_length (pn : PageNumber) : pn.to_be_bytes.length = 8 := rfl

/-- Reading the root fields of a slot right after `set_root_page` wrote them
returns the written root (for in-range, non-null values). -/
theorem get_root_page_set_root_page (m : Nat → Nat) (slot : Nat) (pn : PageNumber) (v : Nat)
    (hidx : pn.page_index < 2 ^ 48) (hidx0 : pn.page_index ≠ 0)
    (hord : pn.page_order < 2 ^ 8) (hv : v < 2 ^ 32) :
    get_root_page (set_root_page m slot pn v) slot = some (pn, v) := by
  unfold get_root_page set_root_page
  rw [readBytes_writeBytes_disjoint _ _ _ _ _ (by
    rw [toBE4_length]
    simp only [ROOT_off, MSG_off]
    omega)]
  have hroot := readBytes_writeBytes_same m (slot + ROOT_PAGE_OFFSET) pn.to_be_bytes
  rw [to_be_bytes_length] at hroot
  rw [hroot, from_be_bytes_to_be_bytes pn hidx hord]
  have hmsg := readBytes_writeBytes_same (writeBytes m (slot + ROOT_PAGE_OFFSET) pn.to_be_bytes)
    (slot + ROOT_PAGE_MESSAGE_BYTES_OFFSET) (toBE4 v)
  rw [toBE4_length] at hmsg
  rw [hmsg, fromBE_toBE4 v hv]
  rw [if_neg hidx0]

/-- Full characterization of `non_durable_commit`: the transaction id is
written into the secondary slot, the primary slot is dirtied (flushing if it
was clean), `allocated_since_commit` is replayed onto the primary allocator
region, and reads are routed to the secondary slot. -/
theorem ndc_spec (s : TxnMem) (t : Nat)
    (hopen : s.open_dirty_pages = ∅)
    (hbit : s.mem PRIMARY_BIT_OFFSET = 0 ∨ s.mem PRIMARY_BIT_OFFSET = 1)
    (hdirty : s.mem (primaryOffset s.mem + ALLOCATOR_STATE_DIRTY_OFFSET) = 0 ∨
              s.mem (primaryOffset s.mem + ALLOCATOR_STATE_DIRTY_OFFSET) = 1)
    (ha : ∀ pn ∈ s.allocated_since_commit, pn.page_order = 0)
    (hfe : s.freed_since_commit = [])
    (hbound : (get_allocator_data s.mem (primaryOffset s.mem)).2 ≤ s.len) :
    ∃ r1 evs, non_durable_commit s t = some ((),
      { s with
        mem := set_allocator_dirty
          (set_last_committed_transaction_id s.mem (secondaryOffset s.mem) t)
          (primaryOffset s.mem) true
        regions := r1
        allocated_since_commit := []
        read_from_secondary := true }, evs) ∧
      ∀ k, k ≠ (get_allocator_data s.mem (primaryOffset s.mem)).1 →
        r1 k = s.regions k := by
  rcases hbit with hb | hb
  · have hsec : secondaryOffset s.mem = 256 := by
      unfold secondaryOffset
      rw [hb]
      decide
    have hpri : primaryOffset s.mem = 128 := by
      unfold primaryOffset
      rw [hb]
      decide
    rw [hpri] at hbound hdirty
    rw [hsec, hpri]
    have h21 : set_last_committed_transaction_id s.mem 256 t PRIMARY_BIT_OFFSET =
        s.mem PRIMARY_BIT_OFFSET :=
      set_txn_apply_out s.mem 256 t PRIMARY_BIT_OFFSET (by simp only [PBIT_off]; omega)
    have hpri1 : primaryOffset (set_last_committed_transaction_id s.mem 256 t) = 128 := by
      unfold primaryOffset
      rw [h21, hb]
      decide
    have hdirty1 : set_last_committed_transaction_id s.mem 256 t
        (128 + ALLOCATOR_STATE_DIRTY_OFFSET) = s.mem (128 + ALLOCATOR_STATE_DIRTY_OFFSET) :=
      set_txn_apply_out s.mem 256 t _ (by simp only [DIRTY_off]; omega)
    have hdata1 : ∀ mm : Nat → Nat, (∀ x, 128 + 28 ≤ x → x < 128 + 44 → mm x = s.mem x) →
        get_allocator_data mm 128 = get_allocator_data s.mem 128 := by
      intro mm hmm
      exact get_allocator_data_congr mm s.mem 128 hmm
    rcases hdirty with hd | hd
    · -- primary slot clean: it gets dirtied and a flush is emitted
      have hdc : get_allocator_dirty (set_last_committed_transaction_id s.mem 256 t) 128 =
          some false :=
        get_allocator_dirty_of_zero _ _ (by rw [hdirty1]; exact hd)
      have hacq : acquire_mutable_page_allocator { s with mem := set_allocator_dirty (set_last_committed_transaction_id s.mem 256 t) 128 true } 128 = some ((get_allocator_data s.mem 128).1, { s with mem := set_allocator_dirty (set_last_committed_transaction_id s.mem 256 t) 128 true }, []) := by
        have hdd : set_allocator_dirty (set_last_committed_transaction_id s.mem 256 t) 128 true
            (128 + ALLOCATOR_STATE_DIRTY_OFFSET) = 1 := by
          have := set_allocator_dirty_apply_same
            (set_last_committed_transaction_id s.mem 256 t) 128 true
          simpa using this
        have hgd : get_allocator_data (set_allocator_dirty
            (set_last_committed_transaction_id s.mem 256 t) 128 true) 128 =
            get_allocator_data s.mem 128 := by
          apply hdata1
          intro x hx1 hx2
          rw [set_allocator_dirty_apply_out _ _ _ _ (by simp only [DIRTY_off]; omega)]
          exact set_txn_apply_out s.mem 256 t x (by omega)
        rw [acquire_dirty _ 128 hdd (by rw [hgd]; exact hbound), hgd]
      refine ⟨updateRegion s.regions (get_allocator_data s.mem 128).1
          ⟨(s.regions (get_allocator_data s.mem 128).1).allocated ∪
            (s.allocated_since_commit.map PageNumber.page_index).toFinset,
            (s.regions (get_allocator_data s.mem 128).1).npages⟩,
          [Ev.write (256 + TRANSACTION_ID_OFFSET) (toBE16 t)]
            ++ [Ev.write (128 + ALLOCATOR_STATE_DIRTY_OFFSET) [1], Ev.flush] ++ []
            ++ s.allocated_since_commit.map
                (fun _ => Ev.region (get_allocator_data s.mem 128).1), ?_, ?_⟩
      · unfold non_durable_commit
        rw [if_pos hopen, hsec]
        dsimp only
        rw [hpri1, hdc]
        dsimp only
        try simp only [if_false_eq_true, if_true_eq_true, if_true, if_false]
        rw [hacq]
        dsimp only
        rw [record_alloc_list_spec _ _ _ ha]
        dsimp only
        rw [if_pos hfe]
        all_goals simp
      · intro k hk
        rw [updateRegion_apply_other _ _ _ _ hk]
    · -- primary slot already dirty: no metapage write beyond the txn id
      have hdc : get_allocator_dirty (set_last_committed_transaction_id s.mem 256 t) 128 =
          some true :=
        get_allocator_dirty_of_one _ _ (by rw [hdirty1]; exact hd)
      have hmm : set_allocator_dirty (set_last_committed_transaction_id s.mem 256 t) 128 true =
          set_last_committed_transaction_id s.mem 256 t := by
        funext x
        by_cases hx : x = 128 + ALLOCATOR_STATE_DIRTY_OFFSET
        · rw [hx, set_allocator_dirty_apply_same, hdirty1, hd]
          decide
        · exact set_allocator_dirty_apply_out _ _ _ _ hx
      have hgd : get_allocator_data (set_last_committed_transaction_id s.mem 256 t) 128 =
          get_allocator_data s.mem 128 := by
        apply hdata1
        intro x hx1 hx2
        exact set_txn_apply_out s.mem 256 t x (by omega)
      have hdd1 : set_last_committed_transaction_id s.mem 256 t
          (128 + ALLOCATOR_STATE_DIRTY_OFFSET) = 1 := by
        rw [hdirty1]
        exact hd
      have hbb1 : (get_allocator_data (set_last_committed_transaction_id s.mem 256 t) 128).2 ≤
          s.len := by
        rw [hgd]
        exact hbound
      have hacq : acquire_mutable_page_allocator { s with mem := set_last_committed_transaction_id s.mem 256 t } 128 = some ((get_allocator_data s.mem 128).1, { s with mem := set_last_committed_transaction_id s.mem 256 t }, []) := by
        rw [acquire_dirty { s with mem := set_last_committed_transaction_id s.mem 256 t } 128 hdd1 hbb1, hgd]
      rw [hmm]
      refine ⟨updateRegion s.regions (get_allocator_data s.mem 128).1
          ⟨(s.regions (get_allocator_data s.mem 128).1).allocated ∪
            (s.allocated_since_commit.map PageNumber.page_index).toFinset,
            (s.regions (get_allocator_data s.mem 128).1).npages⟩,
          [Ev.write (256 + TRANSACTION_ID_OFFSET) (toBE16 t)] ++ [] ++ []
            ++ s.allocated_since_commit.map
                (fun _ => Ev.region (get_allocator_data s.mem 128).1), ?_, ?_⟩
      · unfold non_durable_commit
        rw [if_pos hopen, hsec]
        dsimp only
        rw [hpri1, hdc]
        dsimp only
        try simp only [if_false_eq_true, if_true_eq_true, if_true, if_false]
        rw [hacq]
        dsimp only
        rw [record_alloc_list_spec _ _ _ ha]
        dsimp only
        rw [if_pos hfe]
        all_goals simp
      · intro k hk
        rw [updateRegion_apply_other _ _ _ _ hk]
  · have hsec : secondaryOffset s.mem = 128 := by
      unfold secondaryOffset
      rw [hb]
      decide
    have hpri : primaryOffset s.mem = 256 := by
      unfold primaryOffset
      rw [hb]
      decide
    rw [hpri] at hbound hdirty
    rw [hsec, hpri]
    have h21 : set_last_committed_transaction_id s.mem 128 t PRIMARY_BIT_OFFSET =
        s.mem PRIMARY_BIT_OFFSET :=
      set_txn_apply_out s.mem 128 t PRIMARY_BIT_OFFSET (by simp only [PBIT_off]; omega)
    have hpri1 : primaryOffset (set_last_committed_transaction_id s.mem 128 t) = 256 := by
      unfold primaryOffset
      rw [h21, hb]
      decide
    have hdirty1 : set_last_committed_transaction_id s.mem 128 t
        (256 + ALLOCATOR_STATE_DIRTY_OFFSET) = s.mem (256 + ALLOCATOR_STATE_DIRTY_OFFSET) :=
      set_txn_apply_out s.mem 128 t _ (by simp only [DIRTY_off]; omega)
    have hdata1 : ∀ mm : Nat → Nat, (∀ x, 256 + 28 ≤ x → x < 256 + 44 → mm x = s.mem x) →
        get_allocator_data mm 256 = get_allocator_data s.mem 256 := by
      intro mm hmm
      exact get_allocator_data_congr mm s.mem 256 hmm
    rcases hdirty with hd | hd
    · have hdc : get_allocator_dirty (set_last_committed_transaction_id s.mem 128 t) 256 =
          some false :=
        get_allocator_dirty_of_zero _ _ (by rw [hdirty1]; exact hd)
      have hacq : acquire_mutable_page_allocator { s with mem := set_allocator_dirty (set_last_committed_transaction_id s.mem 128 t) 256 true } 256 = some ((get_allocator_data s.mem 256).1, { s with mem := set_allocator_dirty (set_last_committed_transaction_id s.mem 128 t) 256 true }, []) := by
        have hdd : set_allocator_dirty (set_last_committed_transaction_id s.mem 128 t) 256 true
            (256 + ALLOCATOR_STATE_DIRTY_OFFSET) = 1 := by
          have := set_allocator_dirty_apply_same
            (set_last_committed_transaction_id s.mem 128 t) 256 true
          simpa using this
        have hgd : get_allocator_data (set_allocator_dirty
            (set_last_committed_transaction_id s.mem 128 t) 256 true) 256 =
            get_allocator_data s.mem 256 := by
          apply hdata1
          intro x hx1 hx2
          rw [set_allocator_dirty_apply_out _ _ _ _ (by simp only [DIRTY_off]; omega)]
          exact set_txn_apply_out s.mem 128 t x (by omega)
        rw [acquire_dirty _ 256 hdd (by rw [hgd]; exact hbound), hgd]
      refine ⟨updateRegion s.regions (get_allocator_data s.mem 256).1
          ⟨(s.regions (get_allocator_data s.mem 256).1).allocated ∪
            (s.allocated_since_commit.map PageNumber.page_index).toFinset,
            (s.regions (get_allocator_data s.mem 256).1).npages⟩,
          [Ev.write (128 + TRANSACTION_ID_OFFSET) (toBE16 t)]
            ++ [Ev.write (256 + ALLOCATOR_STATE_DIRTY_OFFSET) [1], Ev.flush] ++ []
            ++ s.allocated_since_commit.map
                (fun _ => Ev.region (get_allocator_data s.mem 256).1), ?_, ?_⟩
      · unfold non_durable_commit
        rw [if_pos hopen, hsec]
        dsimp only
        rw [hpri1, hdc]
        dsimp only
        try simp only [if_false_eq_true, if_true_eq_true, if_true, if_false]
        rw [hacq]
        dsimp only
        rw [record_alloc_list_spec _ _ _ ha]
        dsimp only
        rw [if_pos hfe]
        all_goals simp
      · intro k hk
        rw [updateRegion_apply_other _ _ _ _ hk]
    · have hdc : get_allocator_dirty (set_last_committed_transaction_id s.mem 128 t) 256 =
          some true :=
        get_allocator_dirty_of_one _ _ (by rw [hdirty1]; exact hd)
      have hmm : set_allocator_dirty (set_last_committed_transaction_id s.mem 128 t) 256 true =
          set_last_committed_transaction_id s.mem 128 t := by
        funext x
        by_cases hx : x = 256 + ALLOCATOR_STATE_DIRTY_OFFSET
        · rw [hx, set_allocator_dirty_apply_same, hdirty1, hd]
          decide
        · exact set_allocator_dirty_apply_out _ _ _ _ hx
      have hgd : get_allocator_data (set_last_committed_transaction_id s.mem 128 t) 256 =
          get_allocator_data s.mem 256 := by
        apply hdata1
        intro x hx1 hx2
        exact set_txn_apply_out s.mem 128 t x (by omega)
      have hdd1 : set_last_committed_transaction_id s.mem 128 t
          (256 + ALLOCATOR_STATE_DIRTY_OFFSET) = 1 := by
        rw [hdirty1]
        exact hd
      have hbb1 : (get_allocator_data (set_last_committed_transaction_id s.mem 128 t) 256).2 ≤
          s.len := by
        rw [hgd]
        exact hbound
      have hacq : acquire_mutable_page_allocator { s with mem := set_last_committed_transaction_id s.mem 128 t } 256 = some ((get_allocator_data s.mem 256).1, { s with mem := set_last_committed_transaction_id s.mem 128 t }, []) := by
        rw [acquire_dirty { s with mem := set_last_committed_transaction_id s.mem 128 t } 256 hdd1 hbb1, hgd]
      rw [hmm]
      refine ⟨updateRegion s.regions (get_allocator_data s.mem 256).1
          ⟨(s.regions (get_allocator_data s.mem 256).1).allocated ∪
            (s.allocated_since_commit.map PageNumber.page_index).toFinset,
            (s.regions (get_allocator_data s.mem 256).1).npages⟩,
          [Ev.write (128 + TRANSACTION_ID_OFFSET) (toBE16 t)] ++ [] ++ []
            ++ s.allocated_since_commit.map
                (fun _ => Ev.region (get_allocator_data s.mem 256).1), ?_, ?_⟩
      · unfold non_durable_commit
        rw [if_pos hopen, hsec]
        dsimp only
        rw [hpri1, hdc]
        dsimp only
        try simp only [if_false_eq_true, if_true_eq_true, if_true, if_false]
        rw [hacq]
        dsimp only
        rw [record_alloc_list_spec _ _ _ ha]
        dsimp only
        rw [if_pos hfe]
        all_goals simp
      · intro k hk
        rw [updateRegion_apply_other _ _ _ _ hk]

/-! ### Claim C1: flush ordering inside commit -/

/-- C1 counterexample: on a concrete state, the effect trace of `commit` has
no flush between the secondary-dirty-clear write (byte 300) and the
primary-bit flip (byte 21); the claimed trace with a third flush in between
is not the trace the code produces. -/
theorem commit_no_flush_before_bit_flip :
    (commit stFull 7).map (fun r => r.2.2) =
      some [Ev.write 268 (toBE16 7), Ev.flush, Ev.write 300 [0],
            Ev.write 21 [1], Ev.write 172 [1], Ev.flush] ∧
    ([Ev.write 268 (toBE16 7), Ev.flush, Ev.write 300 [0],
      Ev.write 21 [1], Ev.write 172 [1], Ev.flush] : List Ev) ≠
    [Ev.write 268 (toBE16 7), Ev.flush, Ev.write 300 [0], Ev.flush,
     Ev.write 21 [1], Ev.write 172 [1], Ev.flush] := by
  constructor
  · rfl
  · decide

/-- C1 (amended): for every commit the sequence of effects is: write txn_id,
flush, clear secondary dirty, flip primary_bit and set new secondary dirty,
flush, then replay the allocation deltas onto the new secondary region — the
trace contains exactly two flushes, and in particular no flush occurs between
clearing the secondary dirty flag and flipping the primary bit. -/
theorem commit_flush_ordering (s : TxnMem) (t : Nat)
    (hopen : s.open_dirty_pages = ∅)
    (hbit : s.mem PRIMARY_BIT_OFFSET = 0 ∨ s.mem PRIMARY_BIT_OFFSET = 1)
    (ha : ∀ pn ∈ s.allocated_since_commit, pn.page_order = 0)
    (hf : ∀ pn ∈ s.freed_since_commit, pn.page_order = 0)
    (hbound : (get_allocator_data s.mem (primaryOffset s.mem)).2 ≤ s.len) :
    ∃ s1 evs, commit s t = some ((), s1, evs) ∧
      evs = [Ev.write (secondaryOffset s.mem + TRANSACTION_ID_OFFSET) (toBE16 t), Ev.flush,
             Ev.write (secondaryOffset s.mem + ALLOCATOR_STATE_DIRTY_OFFSET) [0],
             Ev.write PRIMARY_BIT_OFFSET [if s.mem PRIMARY_BIT_OFFSET = 0 then 1 else 0],
             Ev.write (primaryOffset s.mem + ALLOCATOR_STATE_DIRTY_OFFSET) [1], Ev.flush]
        ++ s.allocated_since_commit.map
            (fun _ => Ev.region (get_allocator_data s.mem (primaryOffset s.mem)).1)
        ++ s.freed_since_commit.map
            (fun _ => Ev.region (get_allocator_data s.mem (primaryOffset s.mem)).1) ∧
      evs.count Ev.flush = 2 := by
  obtain ⟨r2, heq, _⟩ := commit_spec s t hopen hbit ha hf hbound
  refine ⟨_, _, heq, rfl, ?_⟩
  have hc1 : (s.allocated_since_commit.map
      (fun _ => Ev.region (get_allocator_data s.mem (primaryOffset s.mem)).1)).count
      Ev.flush = 0 := by
    rw [List.count_eq_zero]
    simp
  have hc2 : (s.freed_since_commit.map
      (fun _ => Ev.region (get_allocator_data s.mem (primaryOffset s.mem)).1)).count
      Ev.flush = 0 := by
    rw [List.count_eq_zero]
    simp
  rw [List.count_append, List.count_append, hc1, hc2]
  simp [List.count_cons]

/-- C1 witness: the amended flush ordering evaluated on `stFull`. -/
theorem commit_flush_ordering_witness :
    (stFull.open_dirty_pages = ∅ ∧
      (stFull.mem PRIMARY_BIT_OFFSET = 0 ∨ stFull.mem PRIMARY_BIT_OFFSET = 1) ∧
      (∀ pn ∈ stFull.allocated_since_commit, pn.page_order = 0) ∧
      (∀ pn ∈ stFull.freed_since_commit, pn.page_order = 0) ∧
      (get_allocator_data stFull.mem (primaryOffset stFull.mem)).2 ≤ stFull.len) ∧
    (∃ s1 evs, commit stFull 9 = some ((), s1, evs) ∧
      evs = [Ev.write (secondaryOffset stFull.mem + TRANSACTION_ID_OFFSET) (toBE16 9), Ev.flush,
             Ev.write (secondaryOffset stFull.mem + ALLOCATOR_STATE_DIRTY_OFFSET) [0],
             Ev.write PRIMARY_BIT_OFFSET
               [if stFull.mem PRIMARY_BIT_OFFSET = 0 then 1 else 0],
             Ev.write (primaryOffset stFull.mem + ALLOCATOR_STATE_DIRTY_OFFSET) [1], Ev.flush]
        ++ stFull.allocated_since_commit.map
            (fun _ => Ev.region (get_allocator_data stFull.mem (primaryOffset stFull.mem)).1)
        ++ stFull.freed_since_commit.map
            (fun _ => Ev.region (get_allocator_data stFull.mem (primaryOffset stFull.mem)).1) ∧
      evs.count Ev.flush = 2) :=
  ⟨⟨by decide, Or.inl (by decide), by decide, by decide, by decide⟩,
    commit_flush_ordering stFull 9 (by decide) (Or.inl (by decide)) (by decide) (by decide)
      (by decide)⟩

/-! ### Claim C4: non-durable visibility of the secondary root -/

theorem set_root_apply_out (m : Nat → Nat) (slot : Nat) (pn : PageNumber) (v x : Nat)
    (h : x < slot ∨ slot + 12 ≤ x) : set_root_page m slot pn v x = m x := by
  unfold set_root_page
  rw [writeBytes_apply_out _ _ _ _ (by
    rw [toBE4_length]
    simp only [MSG_off]
    omega)]
  rw [writeBytes_apply_out _ _ _ _ (by
    rw [to_be_bytes_length]
    simp only [ROOT_off]
    omega)]

theorem secondaryOffset_congr (m1 m2 : Nat → Nat)
    (h : m1 PRIMARY_BIT_OFFSET = m2 PRIMARY_BIT_OFFSET) :
    secondaryOffset m1 = secondaryOffset m2 := by
  unfold secondaryOffset
  rw [h]

theorem primaryOffset_congr (m1 m2 : Nat → Nat)
    (h : m1 PRIMARY_BIT_OFFSET = m2 PRIMARY_BIT_OFFSET) :
    primaryOffset m1 = primaryOffset m2 := by
  unfold primaryOffset
  rw [h]

/-- C4: after `set_secondary_root_page(pn, v)` and `non_durable_commit(t1)`,
`get_primary_root_page` returns `(pn, v)`; after a subsequent durable
`commit(t2)` it still returns `(pn, v)`. -/
theorem non_durable_visibility (s : TxnMem) (pn : PageNumber) (v t1 t2 : Nat)
    (hopen : s.open_dirty_pages = ∅)
    (hbit : s.mem PRIMARY_BIT_OFFSET = 0 ∨ s.mem PRIMARY_BIT_OFFSET = 1)
    (hdirty : s.mem (primaryOffset s.mem + ALLOCATOR_STATE_DIRTY_OFFSET) = 0 ∨
              s.mem (primaryOffset s.mem + ALLOCATOR_STATE_DIRTY_OFFSET) = 1)
    (ha : ∀ q ∈ s.allocated_since_commit, q.page_order = 0)
    (hfe : s.freed_since_commit = [])
    (hbound : (get_allocator_data s.mem (primaryOffset s.mem)).2 ≤ s.len)
    (hidx : pn.page_index < 2 ^ 48) (hidx0 : pn.page_index ≠ 0)
    (hord : pn.page_order < 2 ^ 8) (hv : v < 2 ^ 32) :
    ∃ s2 evs2, non_durable_commit (set_secondary_root_page s pn v).1 t1 =
        some ((), s2, evs2) ∧
      get_primary_root_page s2 = some (pn, v) ∧
      ∃ s3 evs3, commit s2 t2 = some ((), s3, evs3) ∧
        get_primary_root_page s3 = some (pn, v) := by
  rcases hbit with hb | hb
  · have hsec : secondaryOffset s.mem = 256 := by
      unfold secondaryOffset
      rw [hb]
      decide
    have hpri : primaryOffset s.mem = 128 := by
      unfold primaryOffset
      rw [hb]
      decide
    rw [hpri] at hdirty hbound
    have hs1 : (set_secondary_root_page s pn v).1 =
        { s with mem := set_root_page s.mem 256 pn v } := by
      unfold set_secondary_root_page
      rw [hsec]
    rw [hs1]
    have hm21 : set_root_page s.mem 256 pn v PRIMARY_BIT_OFFSET = s.mem PRIMARY_BIT_OFFSET :=
      set_root_apply_out s.mem 256 pn v _ (by simp only [PBIT_off]; omega)
    have hdirty1 : set_root_page s.mem 256 pn v (128 + ALLOCATOR_STATE_DIRTY_OFFSET) =
        s.mem (128 + ALLOCATOR_STATE_DIRTY_OFFSET) :=
      set_root_apply_out s.mem 256 pn v _ (by simp only [DIRTY_off]; omega)
    have hdata1 : get_allocator_data (set_root_page s.mem 256 pn v) 128 =
        get_allocator_data s.mem 128 := by
      apply get_allocator_data_congr
      intro x hx1 hx2
      exact set_root_apply_out s.mem 256 pn v x (by omega)
    have hsec1 : secondaryOffset (set_root_page s.mem 256 pn v) = 256 := by
      rw [secondaryOffset_congr _ s.mem hm21]
      exact hsec
    have hpri1 : primaryOffset (set_root_page s.mem 256 pn v) = 128 := by
      rw [primaryOffset_congr _ s.mem hm21]
      exact hpri
    obtain ⟨r1, evs2, heq2, _⟩ := ndc_spec { s with mem := set_root_page s.mem 256 pn v } t1
      hopen
      (Or.inl (show set_root_page s.mem 256 pn v PRIMARY_BIT_OFFSET = 0 by rw [hm21]; exact hb))
      (by
        show set_root_page s.mem 256 pn v
            (primaryOffset (set_root_page s.mem 256 pn v) + ALLOCATOR_STATE_DIRTY_OFFSET) = 0 ∨
          set_root_page s.mem 256 pn v
            (primaryOffset (set_root_page s.mem 256 pn v) + ALLOCATOR_STATE_DIRTY_OFFSET) = 1
        rw [hpri1, hdirty1]
        exact hdirty)
      ha hfe
      (by
        show (get_allocator_data (set_root_page s.mem 256 pn v)
          (primaryOffset (set_root_page s.mem 256 pn v))).2 ≤ s.len
        rw [hpri1, hdata1]
        exact hbound)
    dsimp only at heq2
    rw [hsec1, hpri1] at heq2
    refine ⟨_, _, heq2, ?_, ?_⟩
    · -- the root is read from the secondary slot after the non-durable commit
      unfold get_primary_root_page
      dsimp only
      rw [if_true_eq_true]
      have hsec2 : secondaryOffset (set_allocator_dirty
          (set_last_committed_transaction_id (set_root_page s.mem 256 pn v) 256 t1)
          128 true) = 256 := by
        unfold secondaryOffset
        rw [set_allocator_dirty_apply_out _ _ _ _ (by simp only [DIRTY_off, PBIT_off]; omega),
          set_txn_apply_out _ _ _ _ (by simp only [PBIT_off]; omega), hm21, hb]
        decide
      rw [hsec2]
      rw [get_root_page_congr _ (set_root_page s.mem 256 pn v) 256 (by
        intro x hx1 hx2
        rw [set_allocator_dirty_apply_out _ _ _ _ (by simp only [DIRTY_off]; omega),
          set_txn_apply_out _ _ _ _ (by omega)])]
      exact get_root_page_set_root_page s.mem 256 pn v hidx hidx0 hord hv
    · -- a subsequent durable commit keeps the same root visible
      have hm2_21 : set_allocator_dirty
          (set_last_committed_transaction_id (set_root_page s.mem 256 pn v) 256 t1)
          128 true PRIMARY_BIT_OFFSET = 0 := by
        rw [set_allocator_dirty_apply_out _ _ _ _ (by simp only [DIRTY_off, PBIT_off]; omega),
          set_txn_apply_out _ _ _ _ (by simp only [PBIT_off]; omega), hm21]
        exact hb
      have hsec2 : secondaryOffset (set_allocator_dirty
          (set_last_committed_transaction_id (set_root_page s.mem 256 pn v) 256 t1)
          128 true) = 256 := by
        unfold secondaryOffset
        rw [hm2_21]
        decide
      have hpri2 : primaryOffset (set_allocator_dirty
          (set_last_committed_transaction_id (set_root_page s.mem 256 pn v) 256 t1)
          128 true) = 128 := by
        unfold primaryOffset
        rw [hm2_21]
        decide
      have hdata2 : get_allocator_data (set_allocator_dirty
          (set_last_committed_transaction_id (set_root_page s.mem 256 pn v) 256 t1)
          128 true) 128 = get_allocator_data s.mem 128 := by
        apply get_allocator_data_congr
        intro x hx1 hx2
        rw [set_allocator_dirty_apply_out _ _ _ _ (by simp only [DIRTY_off]; omega),
          set_txn_apply_out _ _ _ _ (by omega)]
        exact set_root_apply_out s.mem 256 pn v x (by omega)
      obtain ⟨r2c, heq3, _⟩ := commit_spec
        { s with
          mem := set_allocator_dirty
            (set_last_committed_transaction_id (set_root_page s.mem 256 pn v) 256 t1) 128 true
          regions := r1
          allocated_since_commit := []
          read_from_secondary := true } t2
        hopen (Or.inl hm2_21)
        (by intro q hq; simp at hq)
        (by
          intro q hq
          dsimp only at hq
          rw [hfe] at hq
          simp at hq)
        (by
          show (get_allocator_data (set_allocator_dirty
            (set_last_committed_transaction_id (set_root_page s.mem 256 pn v) 256 t1) 128 true)
            (primaryOffset (set_allocator_dirty
              (set_last_committed_transaction_id (set_root_page s.mem 256 pn v) 256 t1)
              128 true))).2 ≤ s.len
          rw [hpri2, hdata2]
          exact hbound)
      dsimp only at heq3
      rw [hsec2, hpri2, hm2_21] at heq3
      simp only [reduceIte] at heq3
      refine ⟨_, _, heq3, ?_⟩
      unfold get_primary_root_page
      dsimp only
      rw [if_false_eq_true]
      have hm3_21 : set_allocator_dirty (writeBytes (set_allocator_dirty
          (set_last_committed_transaction_id (set_allocator_dirty
            (set_last_committed_transaction_id (set_root_page s.mem 256 pn v) 256 t1)
            128 true) 256 t2) 256 false) PRIMARY_BIT_OFFSET [1]) 128 true
          PRIMARY_BIT_OFFSET = 1 := by
        rw [set_allocator_dirty_apply_out _ _ _ _ (by simp only [DIRTY_off, PBIT_off]; omega)]
        rw [writeBytes_apply_in _ _ _ _ (Nat.le_refl _) (by simp)]
        simp
      have hpri3 : primaryOffset (set_allocator_dirty (writeBytes (set_allocator_dirty
          (set_last_committed_transaction_id (set_allocator_dirty
            (set_last_committed_transaction_id (set_root_page s.mem 256 pn v) 256 t1)
            128 true) 256 t2) 256 false) PRIMARY_BIT_OFFSET [1]) 128 true) = 256 := by
        unfold primaryOffset
        rw [hm3_21]
        decide
      rw [hpri3]
      rw [get_root_page_congr _ (set_root_page s.mem 256 pn v) 256 (by
        intro x hx1 hx2
        rw [set_allocator_dirty_apply_out _ _ _ _ (by simp only [DIRTY_off]; omega)]
        rw [writeBytes_apply_out _ _ _ _ (by simp only [PBIT_off, List.length_singleton]; omega)]
        rw [set_allocator_dirty_apply_out _ _ _ _ (by simp only [DIRTY_off]; omega)]
        rw [set_txn_apply_out _ _ _ _ (by omega)]
        rw [set_allocator_dirty_apply_out _ _ _ _ (by simp only [DIRTY_off]; omega)]
        rw [set_txn_apply_out _ _ _ _ (by omega)])]
      exact get_root_page_set_root_page s.mem 256 pn v hidx hidx0 hord hv
  · have hsec : secondaryOffset s.mem = 128 := by
      unfold secondaryOffset
      rw [hb]
      decide
    have hpri : primaryOffset s.mem = 256 := by
      unfold primaryOffset
      rw [hb]
      decide
    rw [hpri] at hdirty hbound
    have hs1 : (set_secondary_root_page s pn v).1 =
        { s with mem := set_root_page s.mem 128 pn v } := by
      unfold set_secondary_root_page
      rw [hsec]
    rw [hs1]
    have hm21 : set_root_page s.mem 128 pn v PRIMARY_BIT_OFFSET = s.mem PRIMARY_BIT_OFFSET :=
      set_root_apply_out s.mem 128 pn v _ (by simp only [PBIT_off]; omega)
    have hdirty1 : set_root_page s.mem 128 pn v (256 + ALLOCATOR_STATE_DIRTY_OFFSET) =
        s.mem (256 + ALLOCATOR_STATE_DIRTY_OFFSET) :=
      set_root_apply_out s.mem 128 pn v _ (by simp only [DIRTY_off]; omega)
    have hdata1 : get_allocator_data (set_root_page s.mem 128 pn v) 256 =
        get_allocator_data s.mem 256 := by
      apply get_allocator_data_congr
      intro x hx1 hx2
      exact set_root_apply_out s.mem 128 pn v x (by omega)
    have hsec1 : secondaryOffset (set_root_page s.mem 128 pn v) = 128 := by
      rw [secondaryOffset_congr _ s.mem hm21]
      exact hsec
    have hpri1 : primaryOffset (set_root_page s.mem 128 pn v) = 256 := by
      rw [primaryOffset_congr _ s.mem hm21]
      exact hpri
    obtain ⟨r1, evs2, heq2, _⟩ := ndc_spec { s with mem := set_root_page s.mem 128 pn v } t1
      hopen
      (Or.inr (show set_root_page s.mem 128 pn v PRIMARY_BIT_OFFSET = 1 by rw [hm21]; exact hb))
      (by
        show set_root_page s.mem 128 pn v
            (primaryOffset (set_root_page s.mem 128 pn v) + ALLOCATOR_STATE_DIRTY_OFFSET) = 0 ∨
          set_root_page s.mem 128 pn v
            (primaryOffset (set_root_page s.mem 128 pn v) + ALLOCATOR_STATE_DIRTY_OFFSET) = 1
        rw [hpri1, hdirty1]
        exact hdirty)
      ha hfe
      (by
        show (get_allocator_data (set_root_page s.mem 128 pn v)
          (primaryOffset (set_root_page s.mem 128 pn v))).2 ≤ s.len
        rw [hpri1, hdata1]
        exact hbound)
    dsimp only at heq2
    rw [hsec1, hpri1] at heq2
    refine ⟨_, _, heq2, ?_, ?_⟩
    · unfold get_primary_root_page
      dsimp only
      rw [if_true_eq_true]
      have hsec2 : secondaryOffset (set_allocator_dirty
          (set_last_committed_transaction_id (set_root_page s.mem 128 pn v) 128 t1)
          256 true) = 128 := by
        unfold secondaryOffset
        rw [set_allocator_dirty_apply_out _ _ _ _ (by simp only [DIRTY_off, PBIT_off]; omega),
          set_txn_apply_out _ _ _ _ (by simp only [PBIT_off]; omega), hm21, hb]
        decide
      rw [hsec2]
      rw [get_root_page_congr _ (set_root_page s.mem 128 pn v) 128 (by
        intro x hx1 hx2
        rw [set_allocator_dirty_apply_out _ _ _ _ (by simp only [DIRTY_off]; omega),
          set_txn_apply_out _ _ _ _ (by omega)])]
      exact get_root_page_set_root_page s.mem 128 pn v hidx hidx0 hord hv
    · have hm2_21 : set_allocator_dirty
          (set_last_committed_transaction_id (set_root_page s.mem 128 pn v) 128 t1)
          256 true PRIMARY_BIT_OFFSET = 1 := by
        rw [set_allocator_dirty_apply_out _ _ _ _ (by simp only [DIRTY_off, PBIT_off]; omega),
          set_txn_apply_out _ _ _ _ (by simp only [PBIT_off]; omega), hm21]
        exact hb
      have hsec2 : secondaryOffset (set_allocator_dirty
          (set_last_committed_transaction_id (set_root_page s.mem 128 pn v) 128 t1)
          256 true) = 128 := by
        unfold secondaryOffset
        rw [hm2_21]
        decide
      have hpri2 : primaryOffset (set_allocator_dirty
          (set_last_committed_transaction_id (set_root_page s.mem 128 pn v) 128 t1)
          256 true) = 256 := by
        unfold primaryOffset
        rw [hm2_21]
        decide
      have hdata2 : get_allocator_data (set_allocator_dirty
          (set_last_committed_transaction_id (set_root_page s.mem 128 pn v) 128 t1)
          256 true) 256 = get_allocator_data s.mem 256 := by
        apply get_allocator_data_congr
        intro x hx1 hx2
        rw [set_allocator_dirty_apply_out _ _ _ _ (by simp only [DIRTY_off]; omega),
          set_txn_apply_out _ _ _ _ (by omega)]
        exact set_root_apply_out s.mem 128 pn v x (by omega)
      obtain ⟨r2c, heq3, _⟩ := commit_spec
        { s with
          mem := set_allocator_dirty
            (set_last_committed_transaction_id (set_root_page s.mem 128 pn v) 128 t1) 256 true
          regions := r1
          allocated_since_commit := []
          read_from_secondary := true } t2
        hopen (Or.inr hm2_21)
        (by intro q hq; simp at hq)
        (by
          intro q hq
          dsimp only at hq
          rw [hfe] at hq
          simp at hq)
        (by
          show (get_allocator_data (set_allocator_dirty
            (set_last_committed_transaction_id (set_root_page s.mem 128 pn v) 128 t1) 256 true)
            (primaryOffset (set_allocator_dirty
              (set_last_committed_transaction_id (set_root_page s.mem 128 pn v) 128 t1)
              256 true))).2 ≤ s.len
          rw [hpri2, hdata2]
          exact hbound)
      dsimp only at heq3
      rw [hsec2, hpri2, hm2_21] at heq3
      rw [show (if (1 : Nat) = 0 then (1 : Nat) else 0) = 0 from by decide] at heq3
      refine ⟨_, _, heq3, ?_⟩
      unfold get_primary_root_page
      dsimp only
      rw [if_false_eq_true]
      have hm3_21 : set_allocator_dirty (writeBytes (set_allocator_dirty
          (set_last_committed_transaction_id (set_allocator_dirty
            (set_last_committed_transaction_id (set_root_page s.mem 128 pn v) 128 t1)
            256 true) 128 t2) 128 false) PRIMARY_BIT_OFFSET [0]) 256 true
          PRIMARY_BIT_OFFSET = 0 := by
        rw [set_allocator_dirty_apply_out _ _ _ _ (by simp only [DIRTY_off, PBIT_off]; omega)]
        rw [writeBytes_apply_in _ _ _ _ (Nat.le_refl _) (by simp)]
        simp
      have hpri3 : primaryOffset (set_allocator_dirty (writeBytes (set_allocator_dirty
          (set_last_committed_transaction_id (set_allocator_dirty
            (set_last_committed_transaction_id (set_root_page s.mem 128 pn v) 128 t1)
            256 true) 128 t2) 128 false) PRIMARY_BIT_OFFSET [0]) 256 true) = 128 := by
        unfold primaryOffset
        rw [hm3_21]
        decide
      rw [hpri3]
      rw [get_root_page_congr _ (set_root_page s.mem 128 pn v) 128 (by
        intro x hx1 hx2
        rw [set_allocator_dirty_apply_out _ _ _ _ (by simp only [DIRTY_off]; omega)]
        rw [writeBytes_apply_out _ _ _ _ (by simp only [PBIT_off, List.length_singleton]; omega)]
        rw [set_allocator_dirty_apply_out _ _ _ _ (by simp only [DIRTY_off]; omega)]
        rw [set_txn_apply_out _ _ _ _ (by omega)]
        rw [set_allocator_dirty_apply_out _ _ _ _ (by simp only [DIRTY_off]; omega)]
        rw [set_txn_apply_out _ _ _ _ (by omega)])]
      exact get_root_page_set_root_page s.mem 128 pn v hidx hidx0 hord hv

/-- C4 witness: the visibility chain evaluated on `stClean` with root
`(5, 0)` and 10 valid message bytes. -/
theorem non_durable_visibility_witness :
    (stClean.open_dirty_pages = ∅ ∧
      (stClean.mem PRIMARY_BIT_OFFSET = 0 ∨ stClean.mem PRIMARY_BIT_OFFSET = 1) ∧
      (stClean.mem (primaryOffset stClean.mem + ALLOCATOR_STATE_DIRTY_OFFSET) = 0 ∨
        stClean.mem (primaryOffset stClean.mem + ALLOCATOR_STATE_DIRTY_OFFSET) = 1) ∧
      (∀ q ∈ stClean.allocated_since_commit, q.page_order = 0) ∧
      stClean.freed_since_commit = [] ∧
      (get_allocator_data stClean.mem (primaryOffset stClean.mem)).2 ≤ stClean.len ∧
      (5 : Nat) < 2 ^ 48 ∧ (5 : Nat) ≠ 0 ∧ (0 : Nat) < 2 ^ 8 ∧ (10 : Nat) < 2 ^ 32) ∧
    (∃ s2 evs2, non_durable_commit (set_secondary_root_page stClean ⟨5, 0⟩ 10).1 1 =
        some ((), s2, evs2) ∧
      get_primary_root_page s2 = some (⟨5, 0⟩, 10) ∧
      ∃ s3 evs3, commit s2 2 = some ((), s3, evs3) ∧
        get_primary_root_page s3 = some (⟨5, 0⟩, 10)) :=
  ⟨⟨by decide, Or.inl (by decide), Or.inl (by decide), by decide, by decide, by decide,
      by decide, by decide, by decide, by decide⟩,
    non_durable_visibility stClean ⟨5, 0⟩ 10 1 2 (by decide) (Or.inl (by decide))
      (Or.inl (by decide)) (by decide) (by decide) (by decide) (by decide) (by decide)
      (by decide) (by decide)⟩

/-! ### Claim C5: rollback restores the free count -/

/-- `acquire_mutable_page_allocator`, uniformly over the initial dirty state:
the slot ends up dirty and the region key is the stored start pointer. -/
theorem acquire_spec_uniform (s : TxnMem) (slot : Nat)
    (hd : s.mem (slot + ALLOCATOR_STATE_DIRTY_OFFSET) = 0 ∨
          s.mem (slot + ALLOCATOR_STATE_DIRTY_OFFSET) = 1)
    (hb : (get_allocator_data s.mem slot).2 ≤ s.len) :
    ∃ evs, acquire_mutable_page_allocator s slot =
      some ((get_allocator_data s.mem slot).1,
        { s with mem := set_allocator_dirty s.mem slot true }, evs) := by
  rcases hd with h | h
  · exact ⟨_, acquire_clean s slot h hb⟩
  · have hmm : set_allocator_dirty s.mem slot true = s.mem := by
      funext x
      by_cases hx : x = slot + ALLOCATOR_STATE_DIRTY_OFFSET
      · rw [hx, set_allocator_dirty_apply_same, h]
        decide
      · exact set_allocator_dirty_apply_out _ _ _ _ hx
    rw [hmm]
    exact ⟨_, acquire_dirty s slot h hb⟩

/-- Characterization of a successful `allocate`: the least free index of the
secondary region is allocated, registered, and its page is zeroed; the
metapage bytes that matter (primary bit, secondary slot pointer and dirty
flag) are tracked pointwise. -/
theorem allocate_spec (s : TxnMem) (size sec key : Nat)
    (hsize : size ≤ s.page_size)
    (hsecOff : secondaryOffset s.mem = sec)
    (hsecv : sec = 256 ∨ sec = 128)
    (hd : s.mem (sec + ALLOCATOR_STATE_DIRTY_OFFSET) = 0 ∨
          s.mem (sec + ALLOCATOR_STATE_DIRTY_OFFSET) = 1)
    (hkey : (get_allocator_data s.mem sec).1 = key)
    (hbound : (get_allocator_data s.mem sec).2 ≤ s.len)
    (h0 : 0 ∈ (s.regions key).allocated)
    (hps : DB_METAPAGE_SIZE ≤ s.page_size)
    (hnp : (s.regions key).npages * s.page_size ≤ s.len)
    (hmem : ∀ q ∈ s.allocated_since_commit, q.page_index ∈ (s.regions key).allocated)
    (hfree : 0 < (s.regions key).count_free_pages) :
    ∃ idx h s2 evs, allocate s size = some (h, s2, evs) ∧
      h.page_number = (⟨idx, 0⟩ : PageNumber) ∧
      idx ∉ (s.regions key).allocated ∧ idx < (s.regions key).npages ∧
      s2.mem PRIMARY_BIT_OFFSET = s.mem PRIMARY_BIT_OFFSET ∧
      s2.mem (sec + ALLOCATOR_STATE_DIRTY_OFFSET) = 1 ∧
      get_allocator_data s2.mem sec = get_allocator_data s.mem sec ∧
      s2.regions = updateRegion s.regions key
        ⟨insert idx (s.regions key).allocated, (s.regions key).npages⟩ ∧
      s2.allocated_since_commit = ⟨idx, 0⟩ :: s.allocated_since_commit ∧
      s2.freed_since_commit = s.freed_since_commit ∧
      s2.open_dirty_pages = insert ⟨idx, 0⟩ s.open_dirty_pages ∧
      s2.len = s.len ∧ s2.page_size = s.page_size := by
  -- the least free index exists
  have hex : ∃ i ∈ List.range (s.regions key).npages,
      (fun i => decide (i ∉ (s.regions key).allocated)) i = true := by
    have : ((Finset.range (s.regions key).npages).filter
        (fun i => i ∉ (s.regions key).allocated)).Nonempty :=
      Finset.card_pos.mp hfree
    obtain ⟨i, hi⟩ := this
    rw [Finset.mem_filter, Finset.mem_range] at hi
    exact ⟨i, List.mem_range.mpr hi.1, by simpa using hi.2⟩
  obtain ⟨idx, heqf⟩ := Option.isSome_iff_exists.mp (List.find?_isSome.mpr hex)
  have hidxfree : idx ∉ (s.regions key).allocated := by
    have := List.find?_some heqf
    simpa using this
  have hidxlt : idx < (s.regions key).npages :=
    List.mem_range.mp (List.mem_of_find?_eq_some heqf)
  have halloc : (s.regions key).alloc =
      some (idx, ⟨insert idx (s.regions key).allocated, (s.regions key).npages⟩) := by
    unfold AllocState.alloc
    rw [heqf]
  have hidx0 : idx ≠ 0 := fun hc => hidxfree (hc ▸ h0)
  have hlo : s.page_size ≤ idx * 1 * s.page_size := by
    have h1 : 1 ≤ idx * 1 := by omega
    have := Nat.mul_le_mul_right s.page_size h1
    simpa using this
  have hDB : DB_METAPAGE_SIZE = 384 := rfl
  have hfit : (idx + 1) * 1 * s.page_size ≤ s.len := by
    have h1 : (idx + 1) * 1 ≤ (s.regions key).npages := by omega
    have := Nat.mul_le_mul_right s.page_size h1
    omega
  have hnotmem : (⟨idx, 0⟩ : PageNumber) ∉ s.allocated_since_commit := by
    intro hc
    exact hidxfree (hmem _ hc)
  obtain ⟨evs0, hacq⟩ := acquire_spec_uniform s sec hd hbound
  have heq : allocate s size = some (
      ⟨List.replicate ((idx + 1) * 2 ^ 0 * s.page_size - idx * 2 ^ 0 * s.page_size) 0,
        ⟨idx, 0⟩⟩,
      { s with
        mem := writeBytes (set_allocator_dirty s.mem sec true) (idx * 2 ^ 0 * s.page_size)
          (List.replicate ((idx + 1) * 2 ^ 0 * s.page_size - idx * 2 ^ 0 * s.page_size) 0)
        regions := updateRegion s.regions key
          ⟨insert idx (s.regions key).allocated, (s.regions key).npages⟩
        allocated_since_commit := ⟨idx, 0⟩ :: s.allocated_since_commit
        open_dirty_pages := insert ⟨idx, 0⟩ s.open_dirty_pages },
      evs0 ++ [Ev.region key]) := by
    unfold allocate
    rw [if_pos hsize, hsecOff]
    dsimp only
    rw [hacq]
    dsimp only
    rw [hkey, halloc]
    dsimp only
    rw [if_neg hnotmem]
    dsimp only [PageNumber.address_range]
    rw [if_pos (by simpa using hfit)]
  have hlo2 : s.page_size ≤ idx * 2 ^ 0 * s.page_size := by
    simpa using hlo
  refine ⟨idx, _, _, _, heq, rfl, hidxfree, hidxlt, ?_, ?_, ?_, rfl, rfl, rfl, rfl, rfl, rfl⟩
  · -- primary bit survives the dirty write and the page zeroing
    show writeBytes (set_allocator_dirty s.mem sec true) (idx * 2 ^ 0 * s.page_size)
      (List.replicate ((idx + 1) * 2 ^ 0 * s.page_size - idx * 2 ^ 0 * s.page_size) 0)
      PRIMARY_BIT_OFFSET = s.mem PRIMARY_BIT_OFFSET
    rw [writeBytes_apply_out _ _ _ _ (by
      left
      have hDB2 : DB_METAPAGE_SIZE = 384 := rfl
      simp only [PBIT_off]
      omega)]
    exact set_allocator_dirty_apply_out _ _ _ _ (by simp only [PBIT_off, DIRTY_off]; omega)
  · show writeBytes (set_allocator_dirty s.mem sec true) (idx * 2 ^ 0 * s.page_size)
      (List.replicate ((idx + 1) * 2 ^ 0 * s.page_size - idx * 2 ^ 0 * s.page_size) 0)
      (sec + ALLOCATOR_STATE_DIRTY_OFFSET) = 1
    rw [writeBytes_apply_out _ _ _ _ (by
      left
      have hDB2 : DB_METAPAGE_SIZE = 384 := rfl
      simp only [DIRTY_off]
      omega)]
    have := set_allocator_dirty_apply_same s.mem sec true
    simpa using this
  · show get_allocator_data (writeBytes (set_allocator_dirty s.mem sec true)
      (idx * 2 ^ 0 * s.page_size)
      (List.replicate ((idx + 1) * 2 ^ 0 * s.page_size - idx * 2 ^ 0 * s.page_size) 0)) sec =
      get_allocator_data s.mem sec
    apply get_allocator_data_congr
    intro x hx1 hx2
    rw [writeBytes_apply_out _ _ _ _ (by
      left
      have hDB2 : DB_METAPAGE_SIZE = 384 := rfl
      omega)]
    exact set_allocator_dirty_apply_out _ _ _ _ (by simp only [DIRTY_off]; omega)

/-- The P4 scenario driver: allocate a page and immediately drop the returned
mutable handle, `k` times in sequence (no intervening commit). -/
def allocDropN (size : Nat) : Nat → TxnMem → Option TxnMem
  | 0, s => some s
  | kk + 1, s =>
    match allocate s size with
    | none => none
    | some (h, s1, _) => allocDropN size kk (dropPage s1 h.page_number)

theorem count_free_insert (a : AllocState) (idx : Nat)
    (hlt : idx < a.npages) (hfree : idx ∉ a.allocated) :
    (AllocState.mk (insert idx a.allocated) a.npages).count_free_pages =
      a.count_free_pages - 1 := by
  unfold AllocState.count_free_pages
  have hset : (Finset.range a.npages).filter (fun i => i ∉ insert idx a.allocated) =
      ((Finset.range a.npages).filter (fun i => i ∉ a.allocated)).erase idx := by
    ext x
    simp only [Finset.mem_filter, Finset.mem_erase, Finset.mem_insert, Finset.mem_range]
    tauto
  rw [hset, Finset.card_erase_of_mem (by
    rw [Finset.mem_filter, Finset.mem_range]
    exact ⟨hlt, hfree⟩)]

theorem union_sdiff_cancel (A S : Finset Nat) (h : ∀ i ∈ S, i ∉ A) :
    (A ∪ S) \ S = A := by
  ext x
  simp only [Finset.mem_sdiff, Finset.mem_union]
  constructor
  · rintro ⟨h1 | h1, h2⟩
    · exact h1
    · exact absurd h1 h2
  · intro hx
    exact ⟨Or.inl hx, fun hc => h x hc hx⟩

/-- Invariant of the allocate-and-drop loop: the `k` allocations succeed,
allocate `k` fresh indexes into the secondary region, register them in
`allocated_since_commit`, and leave the tracked metapage bytes intact. -/
theorem allocDropN_spec (size : Nat) :
    ∀ (k : Nat) (s : TxnMem) (sec key : Nat),
      size ≤ s.page_size →
      secondaryOffset s.mem = sec →
      (sec = 256 ∨ sec = 128) →
      (s.mem (sec + ALLOCATOR_STATE_DIRTY_OFFSET) = 0 ∨
        s.mem (sec + ALLOCATOR_STATE_DIRTY_OFFSET) = 1) →
      s.open_dirty_pages = ∅ →
      s.freed_since_commit = [] →
      (get_allocator_data s.mem sec).1 = key →
      (get_allocator_data s.mem sec).2 ≤ s.len →
      0 ∈ (s.regions key).allocated →
      DB_METAPAGE_SIZE ≤ s.page_size →
      (s.regions key).npages * s.page_size ≤ s.len →
      (∀ q ∈ s.allocated_since_commit, q.page_order = 0 ∧
        q.page_index ∈ (s.regions key).allocated) →
      k ≤ (s.regions key).count_free_pages →
      ∃ (s1 : TxnMem) (L : List Nat),
        allocDropN size k s = some s1 ∧
        secondaryOffset s1.mem = sec ∧
        (s1.mem (sec + ALLOCATOR_STATE_DIRTY_OFFSET) = 0 ∨
          s1.mem (sec + ALLOCATOR_STATE_DIRTY_OFFSET) = 1) ∧
        s1.open_dirty_pages = ∅ ∧
        s1.freed_since_commit = [] ∧
        s1.len = s.len ∧
        s1.page_size = s.page_size ∧
        get_allocator_data s1.mem sec = get_allocator_data s.mem sec ∧
        s1.regions key = ⟨(s.regions key).allocated ∪ L.toFinset, (s.regions key).npages⟩ ∧
        (∀ i ∈ L, i ∉ (s.regions key).allocated) ∧
        s1.allocated_since_commit =
          L.map (fun i => (⟨i, 0⟩ : PageNumber)) ++ s.allocated_since_commit ∧
        (s1.regions key).count_free_pages = (s.regions key).count_free_pages - k := by
  intro k
  induction k with
  | zero =>
    intro s sec key _ hsecOff _ hd hopen hfreed hkey hbound _ _ _ _ _
    refine ⟨s, ([] : List Nat), rfl, hsecOff, hd, hopen, hfreed, rfl, rfl, rfl, ?_,
      by simp, by simp, by simp⟩
    rw [List.toFinset_nil, Finset.union_empty]
  | succ kk ih =>
    intro s sec key hsize hsecOff hsecv hd hopen hfreed hkey hbound h0 hps hnp hmem hk
    obtain ⟨idx, h, s2, evs, heq, hpn, hidxfree, hidxlt, hm21, hmd, hmdata, hreg, hasc2,
      hfr2, hod2, hlen2, hps2⟩ :=
      allocate_spec s size sec key hsize hsecOff hsecv hd hkey hbound h0 hps hnp
        (fun q hq => (hmem q hq).2) (by omega)
    have hkey2 : (s2.regions key) =
        AllocState.mk (insert idx (s.regions key).allocated) (s.regions key).npages := by
      rw [hreg, updateRegion_apply_same]
    -- the state after dropping the handle
    have hdrop : dropPage s2 h.page_number =
        { s2 with open_dirty_pages := s2.open_dirty_pages.erase h.page_number } := rfl
    have hod3 : (dropPage s2 h.page_number).open_dirty_pages = ∅ := by
      rw [hdrop]
      dsimp only
      rw [hod2, hopen, hpn]
      simp
    have hcnt2 : (s2.regions key).count_free_pages =
        (s.regions key).count_free_pages - 1 := by
      rw [hkey2]
      exact count_free_insert (s.regions key) idx hidxlt hidxfree
    obtain ⟨s1, L, heq1, c1, c2, c3, c4, c5, c6, c7, c8, c9, c10, c11⟩ :=
      ih (dropPage s2 h.page_number) sec key
        (by rw [hdrop]; dsimp only; omega)
        (by
          rw [hdrop]
          dsimp only
          rw [secondaryOffset_congr s2.mem s.mem hm21]
          exact hsecOff)
        hsecv
        (by rw [hdrop]; dsimp only; right; exact hmd)
        hod3
        (by rw [hdrop]; dsimp only; rw [hfr2]; exact hfreed)
        (by rw [hdrop]; dsimp only; rw [hmdata]; exact hkey)
        (by rw [hdrop]; dsimp only; rw [hmdata, hlen2]; exact hbound)
        (by rw [hdrop]; dsimp only; rw [hkey2]; exact Finset.mem_insert_of_mem h0)
        (by rw [hdrop]; dsimp only; omega)
        (by
          rw [hdrop]
          dsimp only
          rw [hkey2, hlen2, hps2]
          dsimp only
          exact hnp)
        (by
          rw [hdrop]
          dsimp only
          rw [hasc2, hkey2]
          intro q hq
          rcases List.mem_cons.mp hq with hq1 | hq1
          · rw [hq1]
            exact ⟨rfl, Finset.mem_insert_self _ _⟩
          · obtain ⟨ho, hi⟩ := hmem q hq1
            exact ⟨ho, Finset.mem_insert_of_mem hi⟩)
        (by rw [hdrop]; dsimp only; rw [hcnt2]; omega)
    refine ⟨s1, L ++ [idx], ?_, c1, c2, c3, c4, by rw [c5, hdrop]; exact hlen2,
      by rw [c6, hdrop]; exact hps2, ?_, ?_, ?_, ?_, ?_⟩
    · show allocDropN size (kk + 1) s = some s1
      unfold allocDropN
      rw [heq]
      exact heq1
    · rw [c7, hdrop]
      dsimp only
      rw [hmdata]
    · rw [c8]
      rw [hdrop]
      dsimp only
      rw [hkey2]
      dsimp only
      congr 1
      ext x
      simp only [Finset.mem_union, Finset.mem_insert, List.mem_toFinset, List.mem_append,
        List.mem_singleton]
      tauto
    · intro i hi
      rcases List.mem_append.mp hi with hi1 | hi1
      · intro hc
        have := c9 i hi1
        rw [hdrop] at this
        dsimp only at this
        rw [hkey2] at this
        exact this (Finset.mem_insert_of_mem hc)
      · rw [List.mem_singleton.mp hi1]
        exact hidxfree
    · rw [c10, hdrop]
      dsimp only
      rw [hasc2]
      rw [List.map_append]
      simp
    · rw [c11, hdrop]
      dsimp only
      rw [hcnt2]
      omega

/-- Replaying an empty allocation list is the identity. -/
theorem record_alloc_list_nil (r : Nat → AllocState) (key : Nat) :
    record_alloc_list r key [] = some (r, []) := rfl

/-- Evaluation of `count_free_pages`: the returned count is the free count of
the secondary allocator region. -/
theorem count_free_pages_value (s : TxnMem) (sec key : Nat)
    (hsecOff : secondaryOffset s.mem = sec)
    (hd : s.mem (sec + ALLOCATOR_STATE_DIRTY_OFFSET) = 0 ∨
          s.mem (sec + ALLOCATOR_STATE_DIRTY_OFFSET) = 1)
    (hkey : (get_allocator_data s.mem sec).1 = key)
    (hbound : (get_allocator_data s.mem sec).2 ≤ s.len) :
    ∃ (s1 : TxnMem) (evs : List Ev),
      count_free_pages s = some ((s.regions key).count_free_pages, s1, evs) := by
  obtain ⟨evs0, hacq⟩ := acquire_spec_uniform s sec hd hbound
  refine ⟨{ s with mem := set_allocator_dirty s.mem sec true }, evs0, ?_⟩
  unfold count_free_pages
  rw [hsecOff]
  dsimp only
  rw [hacq]
  dsimp only
  rw [hkey]

/-- C5: from a fresh transaction (empty in-memory sets), any number of
`allocate` calls followed by `rollback_uncommited_writes` restores the
secondary allocator region, so `count_free_pages` yields the same value it
yielded before the allocations. -/
theorem rollback_restores_free_count (s : TxnMem) (size k sec key : Nat)
    (hsize : size ≤ s.page_size)
    (hsecOff : secondaryOffset s.mem = sec)
    (hsecv : sec = 256 ∨ sec = 128)
    (hd : s.mem (sec + ALLOCATOR_STATE_DIRTY_OFFSET) = 0 ∨
          s.mem (sec + ALLOCATOR_STATE_DIRTY_OFFSET) = 1)
    (hopen : s.open_dirty_pages = ∅)
    (hasc : s.allocated_since_commit = [])
    (hfreed : s.freed_since_commit = [])
    (hkey : (get_allocator_data s.mem sec).1 = key)
    (hbound : (get_allocator_data s.mem sec).2 ≤ s.len)
    (h0 : 0 ∈ (s.regions key).allocated)
    (hps : DB_METAPAGE_SIZE ≤ s.page_size)
    (hnp : (s.regions key).npages * s.page_size ≤ s.len)
    (hk : k ≤ (s.regions key).count_free_pages) :
    ∃ (c0 : Nat) (sb : TxnMem) (evs0 : List Ev),
      count_free_pages s = some (c0, sb, evs0) ∧
    ∃ (s1 : TxnMem), allocDropN size k s = some s1 ∧
    ∃ (s2 : TxnMem) (evs2 : List Ev),
      rollback_uncommited_writes s1 = some ((), s2, evs2) ∧
    ∃ (s3 : TxnMem) (evs3 : List Ev), count_free_pages s2 = some (c0, s3, evs3) := by
  obtain ⟨sb, evs0, hc0⟩ := count_free_pages_value s sec key hsecOff hd hkey hbound
  obtain ⟨s1, L, h1, c1, c2, c3, c4, c5, c6, c7, c8, c9, c10, c11⟩ :=
    allocDropN_spec size k s sec key hsize hsecOff hsecv hd hopen hfreed hkey hbound h0
      hps hnp (by rw [hasc]; intro q hq; simp at hq) hk
  obtain ⟨evsA, hacq1⟩ := acquire_spec_uniform s1 sec c2 (by rw [c7, c5]; exact hbound)
  have hkey1 : (get_allocator_data s1.mem sec).1 = key := by
    rw [c7]
    exact hkey
  have hordersL : ∀ q ∈ s1.allocated_since_commit, q.page_order = 0 := by
    intro q hq
    rw [c10, hasc, List.append_nil] at hq
    obtain ⟨i, hi, rfl⟩ := List.mem_map.mp hq
    rfl
  have hroll : rollback_uncommited_writes s1 = some ((),
      { s1 with
        mem := set_allocator_dirty s1.mem sec true
        regions := updateRegion s1.regions key
          ⟨(s1.regions key).allocated \
            (s1.allocated_since_commit.map PageNumber.page_index).toFinset,
            (s1.regions key).npages⟩
        allocated_since_commit := []
        freed_since_commit := [] },
      evsA ++ s1.allocated_since_commit.map (fun _ => Ev.region key) ++ []) := by
    unfold rollback_uncommited_writes
    rw [if_pos c3, c1]
    dsimp only
    rw [hacq1]
    dsimp only
    rw [hkey1]
    rw [free_list_spec key s1.allocated_since_commit _ hordersL]
    dsimp only
    rw [c4, record_alloc_list_nil]
  -- the restored region equals the original one
  have hmapidx : s1.allocated_since_commit.map PageNumber.page_index = L := by
    rw [c10, hasc, List.append_nil, List.map_map]
    have hco : (PageNumber.page_index ∘ fun i => ({ page_index := i, page_order := 0 } : PageNumber)) = id := by
      funext i
      rfl
    rw [hco, List.map_id]
  have hreg2 : updateRegion s1.regions key
      ⟨(s1.regions key).allocated \
        (s1.allocated_since_commit.map PageNumber.page_index).toFinset,
        (s1.regions key).npages⟩ key = s.regions key := by
    rw [updateRegion_apply_same, hmapidx, c8]
    dsimp only
    rw [union_sdiff_cancel _ _ (by
      intro i hi
      exact c9 i (List.mem_toFinset.mp hi))]
  obtain ⟨s3, evs3, hc3⟩ := count_free_pages_value
    { s1 with
      mem := set_allocator_dirty s1.mem sec true
      regions := updateRegion s1.regions key
        ⟨(s1.regions key).allocated \
          (s1.allocated_since_commit.map PageNumber.page_index).toFinset,
          (s1.regions key).npages⟩
      allocated_since_commit := []
      freed_since_commit := [] } sec key
    (by
      show secondaryOffset (set_allocator_dirty s1.mem sec true) = sec
      rw [secondaryOffset_congr _ s1.mem
        (set_allocator_dirty_apply_out _ _ _ _ (by simp only [PBIT_off, DIRTY_off]; omega))]
      exact c1)
    (by
      right
      show set_allocator_dirty s1.mem sec true (sec + ALLOCATOR_STATE_DIRTY_OFFSET) = 1
      have := set_allocator_dirty_apply_same s1.mem sec true
      simpa using this)
    (by
      show (get_allocator_data (set_allocator_dirty s1.mem sec true) sec).1 = key
      rw [get_allocator_data_set_allocator_dirty _ _ _ _ (by omega)]
      exact hkey1)
    (by
      show (get_allocator_data (set_allocator_dirty s1.mem sec true) sec).2 ≤ s1.len
      rw [get_allocator_data_set_allocator_dirty _ _ _ _ (by omega), c7, c5]
      exact hbound)
  refine ⟨(s.regions key).count_free_pages, sb, evs0, hc0, s1, h1, _, _, hroll,
    s3, evs3, ?_⟩
  rw [hc3]
  congr 2
  dsimp only
  rw [hreg2]

/-- A fresh transaction over a clean secondary slot, four usable pages with
only the metapage allocated, and an mmap long enough for them. -/
def stC5 : TxnMem :=
  ⟨memClean, 20000, fun _ => ⟨{0}, 4⟩, [], [], ∅, false, 4096⟩

/-- C5 witness: two 64-byte allocations then rollback in `stC5` leave
`count_free_pages` at its original value. -/
theorem rollback_restores_free_count_witness :
    (64 ≤ stC5.page_size ∧ secondaryOffset stC5.mem = 256 ∧
      (stC5.mem (256 + ALLOCATOR_STATE_DIRTY_OFFSET) = 0 ∨
        stC5.mem (256 + ALLOCATOR_STATE_DIRTY_OFFSET) = 1) ∧
      stC5.open_dirty_pages = ∅ ∧ stC5.allocated_since_commit = [] ∧
      stC5.freed_since_commit = [] ∧
      (get_allocator_data stC5.mem 256).1 = 1000 ∧
      (get_allocator_data stC5.mem 256).2 ≤ stC5.len ∧
      0 ∈ (stC5.regions 1000).allocated ∧
      DB_METAPAGE_SIZE ≤ stC5.page_size ∧
      (stC5.regions 1000).npages * stC5.page_size ≤ stC5.len ∧
      2 ≤ (stC5.regions 1000).count_free_pages) ∧
    (∃ (c0 : Nat) (sb : TxnMem) (evs0 : List Ev),
      count_free_pages stC5 = some (c0, sb, evs0) ∧
    ∃ (s1 : TxnMem), allocDropN 64 2 stC5 = some s1 ∧
    ∃ (s2 : TxnMem) (evs2 : List Ev),
      rollback_uncommited_writes s1 = some ((), s2, evs2) ∧
    ∃ (s3 : TxnMem) (evs3 : List Ev), count_free_pages s2 = some (c0, s3, evs3)) :=
  ⟨⟨by decide, by decide, by decide, by decide, by decide, by decide, by decide,
    by decide, by decide, by decide, by decide, by decide⟩,
   rollback_restores_free_count stC5 64 2 256 1000 (by decide) (by decide)
     (Or.inl rfl) (by decide) (by decide) (by decide) (by decide) (by decide)
     (by decide) (by decide) (by decide) (by decide) (by decide)⟩
